import Mathlib

/-!
Verification of the ATS matching engine of the job-apps repository.

The Python sources under src/ (document_parser.py, entity_taxonomy.py,
semantic_scorer.py, ats_optimizer.py) are shallowly embedded here:
text is `List Char`, Python floats are modelled as rationals, regular
expressions are translated into a small regex AST with a fuel-driven
backtracking matcher (all the translated patterns consume at least one
character inside every repetition, so a fuel of one more than the text
length reproduces the Python semantics), and `round(x, k)` is modelled
as rounding to the nearest multiple of 10^(-k).  Character predicates
follow Python string semantics on ASCII text.
-/

set_option maxRecDepth 8000

namespace JobApps

/-- Python regex word character, ASCII range: letter, digit or underscore. -/
def isWordChar (c : Char) : Bool := c.isAlphanum || c == '_'

/-- Python whitespace (ASCII range), as used by str.strip, str.split and regex s-class. -/
def pySpaceChar (c : Char) : Bool :=
  c == ' ' || c == '\t' || c == '\n' || c == '\r' || c == Char.ofNat 11 || c == Char.ofNat 12

/-- Lowercase a character list, modelling Python str.lower on ASCII text. -/
def lowerL (l : List Char) : List Char := l.map Char.toLower

/-- Python str.strip(): drop leading and trailing whitespace. -/
def pyStrip (l : List Char) : List Char :=
  ((l.dropWhile pySpaceChar).reverse.dropWhile pySpaceChar).reverse

/-- Fuel-driven loop of pySplitWs; the fuel is structural so that the
function reduces inside the kernel, and one unit per character is enough
because each step discards at least one character. -/
def pySplitWsF : Nat → List Char → List (List Char)
  | 0, _ => []
  | _, [] => []
  | fuel + 1, c :: cs =>
    if pySpaceChar c then pySplitWsF fuel cs
    else (c :: cs.takeWhile (fun d => !pySpaceChar d))
      :: pySplitWsF fuel (cs.dropWhile (fun d => !pySpaceChar d))

/-- Python str.split() with no argument: maximal runs of non-whitespace. -/
def pySplitWs (l : List Char) : List (List Char) := pySplitWsF (l.length + 1) l

/-- Python text.split(sep) for a one-character separator. -/
def pySplitSep (sep : Char) : List Char → List (List Char)
  | [] => [[]]
  | c :: cs =>
    let rest := pySplitSep sep cs
    if c == sep then [] :: rest
    else
      match rest with
      | [] => [[c]]
      | w :: ws => (c :: w) :: ws

/-- Join a list of lines with a newline separator, modelling a join on a newline string. -/
def joinNl (ls : List (List Char)) : List Char :=
  match ls with
  | [] => []
  | l :: rest => rest.foldl (fun acc x => acc ++ vNl ++ x) l
where vNl : List Char := ['\n']

/-- Python str.isupper on ASCII text: at least one cased character and no lowercase one. -/
def pyIsUpperStr (l : List Char) : Bool :=
  let cased := l.filter (fun c => c.isAlpha)
  !cased.isEmpty && cased.all Char.isUpper

/-- Helper for pyIsTitle: walk the characters remembering whether the previous one was cased. -/
def pyIsTitleAux : List Char → Bool → Bool → Bool
  | [], _, found => found
  | c :: cs, prevCased, found =>
    if c.isUpper then
      if prevCased then false else pyIsTitleAux cs true true
    else if c.isLower then
      if prevCased then pyIsTitleAux cs true true else false
    else pyIsTitleAux cs false found

/-- Python str.istitle on ASCII text. -/
def pyIsTitle (l : List Char) : Bool := pyIsTitleAux l false false

/-- Numeric value of a decimal digit list, modelling int() on a digit string. -/
def natOfDigits (l : List Char) : Nat := l.foldl (fun a c => 10 * a + (c.toNat - 48)) 0

/-- Python str.isdigit on ASCII text: nonempty and all decimal digits. -/
def pyIsDigitStr (l : List Char) : Bool := !l.isEmpty && l.all Char.isDigit

/-- First character is a word character (false for the empty list). -/
def headIsWord : List Char → Bool
  | [] => false
  | c :: _ => isWordChar c

/-- Slice text[s:e] of a character list. -/
def sliceL (text : List Char) (s e : Nat) : List Char := (text.drop s).take (e - s)

/-! ## Regex AST and matcher

Each Python pattern used by the engine is compiled with re.IGNORECASE, so
the matcher lowercases the subject character before comparing it with the
pattern literal, which is stored lowercase.  -/

/-- A single-character class of the translated patterns. -/
inductive CharClass where
  | digit
  | space
  | wordc
  | oneOf (cs : List Char)
deriving Repr, DecidableEq

/-- Regex AST covering the constructs of the translated patterns.
Repetition is greedy, alternation prefers the left branch, `grp` is a
numbered capturing group and `wordB` is the word-boundary assertion. -/
inductive RE where
  | eps
  | cls (alts : List CharClass)
  | wordB
  | seq (a b : RE)
  | alt (a b : RE)
  | star (a : RE)
  | grp (i : Nat) (a : RE)
deriving Repr

/-- Class membership, after lowercasing the subject character. -/
def classMatches : CharClass → Char → Bool
  | .digit, c => c.isDigit
  | .space, c => pySpaceChar c
  | .wordc, c => isWordChar c
  | .oneOf cs, c => cs.contains c.toLower

/-- Matcher state: whether the previous character is a word character, the
remaining input, the absolute position, and the captures recorded so far as
(group index, start, stop) with the most recent first. -/
structure MState where
  prev : Bool
  rest : List Char
  pos : Nat
  caps : List (Nat × Nat × Nat)
deriving Repr

/-- Backtracking matcher: all ways the pattern can match a front of the
input, in the priority order of the Python engine (greedy repetition,
leftmost alternative first).  The fuel bounds the number of unrollings of
each repetition; every repetition body of the translated patterns consumes
at least one character, so a fuel of one more than the input length is
exact. -/
def runRE : Nat → RE → MState → List MState
  | 0, _, _ => []
  | fuel + 1, re, st =>
    match re with
    | .eps => [st]
    | .cls alts =>
      match st.rest with
      | [] => []
      | c :: rs =>
        if alts.any (fun cl => classMatches cl c) then
          [⟨isWordChar c, rs, st.pos + 1, st.caps⟩]
        else []
    | .wordB => if st.prev != headIsWord st.rest then [st] else []
    | .seq a b => (runRE fuel a st).flatMap (fun st2 => runRE fuel b st2)
    | .alt a b => runRE fuel a st ++ runRE fuel b st
    | .grp i a =>
      (runRE fuel a st).map (fun st2 => { st2 with caps := (i, st.pos, st2.pos) :: st2.caps })
    | .star a => ((runRE fuel a st).flatMap (fun st2 => runRE fuel (.star a) st2)) ++ [st]

/-- The number of nodes of a pattern, used to size the matcher fuel. -/
def reSize : RE → Nat
  | .eps => 1
  | .cls _ => 1
  | .wordB => 1
  | .seq a b => reSize a + reSize b + 1
  | .alt a b => reSize a + reSize b + 1
  | .star a => reSize a + 1
  | .grp _ a => reSize a + 1

/-- Fuel that is always sufficient for the translated patterns: the call
depth of the matcher is bounded by one AST descent per node on the match
path plus one star unrolling per consumed character, and every repetition
body of the translated patterns consumes at least one character. -/
def reFuel (re : RE) (text : List Char) : Nat :=
  (reSize re + 2) * (text.length + 2)

/-- Whether the character just before position i of the text is a word character. -/
def prevWordAt (text : List Char) (i : Nat) : Bool :=
  if i = 0 then false else isWordChar (text.getD (i - 1) ' ')

/-- Initial matcher state at position i of the text. -/
def mstateAt (text : List Char) (i : Nat) : MState :=
  ⟨prevWordAt text i, text.drop i, i, []⟩

/-- First (Python-preferred) match of the pattern anchored at position i:
the end position and the captures. -/
def reMatchAt (re : RE) (text : List Char) (i : Nat) : Option (Nat × List (Nat × Nat × Nat)) :=
  match runRE (reFuel re text) re (mstateAt text i) with
  | [] => none
  | st :: _ => some (st.pos, st.caps)

/-- Helper scanning loop for reSearch. -/
def reSearchFrom (re : RE) (text : List Char) : Nat → Nat → Bool
  | 0, _ => false
  | fuel + 1, i =>
    if i ≤ text.length then
      if (reMatchAt re text i).isSome then true else reSearchFrom re text fuel (i + 1)
    else false

/-- Python pattern.search(text) as a Boolean: some match starts somewhere. -/
def reSearch (re : RE) (text : List Char) : Bool :=
  reSearchFrom re text (text.length + 2) 0

/-- Helper scanning loop for reFinditer. -/
def reFindFrom (re : RE) (text : List Char) : Nat → Nat → List (Nat × Nat × List (Nat × Nat × Nat))
  | 0, _ => []
  | fuel + 1, i =>
    if i ≤ text.length then
      match reMatchAt re text i with
      | some (e, caps) =>
        (i, e, caps) :: reFindFrom re text fuel (if i < e then e else i + 1)
      | none => reFindFrom re text fuel (i + 1)
    else []

/-- Python pattern.finditer(text): non-overlapping matches, leftmost first,
each as (start, stop, captures). -/
def reFinditer (re : RE) (text : List Char) : List (Nat × Nat × List (Nat × Nat × Nat)) :=
  reFindFrom re text (text.length + 2) 0

/-! Combinators used to transcribe the concrete patterns. -/

/-- Sequence of a list of patterns. -/
def reSeqL (l : List RE) : RE := l.foldr RE.seq RE.eps

/-- Case-insensitive literal string (stored lowercase). -/
def reStr (s : String) : RE := reSeqL (s.data.map (fun c => RE.cls [.oneOf [c]]))

/-- Alternation of a nonempty list, left preferred. -/
def reAltL : List RE → RE
  | [] => RE.eps
  | [r] => r
  | r :: rs => RE.alt r (reAltL rs)

/-- Greedy option (X?). -/
def reOpt (a : RE) : RE := RE.alt a RE.eps

/-- Greedy plus (X+). -/
def rePlus (a : RE) : RE := RE.seq a (RE.star a)

/-- Zero or more whitespace characters. -/
def ws0 : RE := RE.star (RE.cls [.space])

/-- One or more whitespace characters. -/
def ws1 : RE := rePlus (RE.cls [.space])

/-- One or more decimal digits. -/
def digits1 : RE := rePlus (RE.cls [.digit])

/-- The years-or-yrs fragment (?:years?|yrs?). -/
def yearsWord : RE :=
  RE.alt (RE.seq (reStr "year") (reOpt (reStr "s"))) (RE.seq (reStr "yr") (reOpt (reStr "s")))

/-- The apostrophe character, used by a few job-description header patterns. -/
def aposC : Char := Char.ofNat 39

/-! ## Entity taxonomy (entity_taxonomy.py)

The Python sets are transcribed as lists in source order.  Only membership
matters to the extractor: its seen-set makes the output independent of
duplicate occurrences in these lists, and no claim depends on entity
order beyond that. -/

/-- HARD_SKILLS from entity_taxonomy.py. -/
def HARD_SKILLS : List String := [
  "python", "java", "javascript", "typescript", "c++", "c#", "ruby", "go",
  "golang", "rust", "scala", "kotlin", "swift", "php", "perl", "r",
  "matlab", "julia", "haskell", "clojure", "erlang", "elixir", "lua",
  "objective-c", "dart", "groovy", "f#", "cobol", "fortran", "assembly",
  "bash", "shell", "powershell", "sql", "plsql", "tsql",
  "html", "html5", "css", "css3", "sass", "scss", "less", "tailwind",
  "bootstrap", "react", "reactjs", "angular", "angularjs", "vue", "vuejs",
  "svelte", "nextjs", "nuxtjs", "gatsby", "remix", "astro", "jquery",
  "webpack", "vite", "rollup", "parcel", "babel", "eslint", "prettier",
  "nodejs", "expressjs", "express", "fastify", "nestjs", "deno", "bun",
  "django", "flask", "fastapi", "spring", "spring boot", "hibernate",
  "rails", "ruby on rails", "laravel", "symfony", "aspnet", "asp.net",
  ".net", "dotnet", ".net core", "entity framework", "gin", "echo",
  "fiber", "actix", "rocket",
  "mysql", "postgresql", "postgres", "oracle", "sql server", "sqlite",
  "mongodb", "redis", "elasticsearch", "cassandra", "dynamodb", "couchdb",
  "neo4j", "graphql", "mariadb", "cockroachdb", "timescaledb", "influxdb",
  "firestore", "firebase", "supabase", "prisma", "sequelize", "typeorm",
  "aws", "amazon web services", "azure", "gcp", "google cloud",
  "docker", "kubernetes", "k8s", "terraform", "ansible", "puppet", "chef",
  "jenkins", "gitlab ci", "github actions", "circleci", "travis ci",
  "argocd", "helm", "prometheus", "grafana", "datadog", "splunk",
  "cloudformation", "pulumi", "vagrant", "openshift", "rancher",
  "ec2", "s3", "lambda", "ecs", "eks", "fargate", "rds", "cloudfront",
  "route53", "vpc", "iam", "sns", "sqs", "kinesis", "redshift",
  "api gateway", "cloudwatch", "step functions",
  "machine learning", "deep learning", "neural networks", "tensorflow",
  "pytorch", "keras", "scikit-learn", "sklearn", "pandas", "numpy",
  "scipy", "matplotlib", "seaborn", "plotly", "jupyter", "notebooks",
  "nlp", "natural language processing", "computer vision", "opencv",
  "transformers", "hugging face", "bert", "gpt", "llm", "llms",
  "large language models", "rag", "langchain", "vector databases",
  "pinecone", "weaviate", "milvus", "qdrant", "embedding", "embeddings",
  "feature engineering", "model training", "mlops", "mlflow", "kubeflow",
  "sagemaker", "vertex ai", "databricks", "spark", "pyspark", "hadoop",
  "airflow", "luigi", "dagster", "dbt", "etl", "data pipeline",
  "data engineering", "data warehouse", "data lake", "snowflake",
  "bigquery", "athena", "glue", "kafka", "flink", "beam",
  "unit testing", "integration testing", "e2e testing", "jest", "mocha",
  "cypress", "playwright", "selenium", "puppeteer", "pytest", "unittest",
  "junit", "testng", "rspec", "cucumber", "postman", "insomnia",
  "load testing", "performance testing", "jmeter", "gatling", "locust",
  "tdd", "bdd", "test automation",
  "cybersecurity", "penetration testing", "owasp", "encryption",
  "authentication", "authorization", "oauth", "oauth2", "jwt",
  "saml", "sso", "ldap", "active directory", "keycloak", "okta",
  "ssl", "tls", "https", "certificates", "firewall", "waf", "vpn",
  "siem", "soc", "devsecops", "vulnerability assessment",
  "ios", "android", "react native", "flutter", "xamarin", "ionic",
  "cordova", "swiftui", "jetpack compose", "kotlin multiplatform",
  "rest", "restful", "rest api", "graphql", "grpc", "soap", "websocket",
  "websockets", "http", "tcp", "udp", "mqtt", "amqp", "json", "xml",
  "yaml", "protobuf", "openapi", "swagger", "api design",
  "git", "github", "gitlab", "bitbucket", "svn", "mercurial",
  "version control", "branching", "merging", "code review",
  "vscode", "visual studio code", "intellij", "pycharm", "eclipse",
  "vim", "neovim", "emacs", "xcode", "android studio", "sublime",
  "ci/cd", "cicd", "continuous integration", "continuous deployment",
  "continuous delivery", "devops", "gitops", "infrastructure as code",
  "microservices", "monolith", "serverless", "event-driven",
  "domain-driven design", "ddd", "cqrs", "event sourcing",
  "api-first", "design patterns", "solid", "clean architecture",
  "tableau", "power bi", "looker", "metabase", "qlik", "sap",
  "business intelligence", "data visualization", "reporting",
  "dashboards", "kpi", "analytics",
  "figma", "sketch", "adobe xd", "photoshop", "illustrator",
  "ui design", "ux design", "ui/ux", "wireframing", "prototyping",
  "design systems", "accessibility", "wcag", "responsive design",
  "linux", "unix", "windows server", "macos", "ubuntu", "centos",
  "debian", "networking", "load balancing", "nginx", "apache",
  "caching", "cdn", "dns", "system administration", "sysadmin",
  "virtualization", "vmware", "hyper-v", "embedded systems",
  "iot", "blockchain", "smart contracts", "solidity", "web3",
  "ar", "vr", "unity", "unreal engine", "game development"]

/-- SOFT_SKILLS from entity_taxonomy.py. -/
def SOFT_SKILLS : List String := [
  "communication", "written communication", "verbal communication",
  "presentation", "public speaking", "storytelling", "documentation",
  "technical writing", "active listening", "negotiation", "persuasion",
  "leadership", "team leadership", "people management", "mentoring",
  "coaching", "delegation", "decision making", "strategic thinking",
  "vision", "influence", "motivation", "empowerment", "accountability",
  "teamwork", "collaboration", "cross-functional", "interpersonal",
  "relationship building", "conflict resolution", "consensus building",
  "stakeholder management", "partnership",
  "problem solving", "critical thinking", "analytical thinking",
  "troubleshooting", "root cause analysis", "debugging", "creativity",
  "innovation", "lateral thinking", "logical reasoning",
  "organization", "planning", "prioritization", "time management",
  "multitasking", "attention to detail", "deadline management",
  "resource management", "scheduling", "goal setting",
  "adaptability", "flexibility", "resilience", "agility",
  "learning agility", "growth mindset", "change management",
  "stress management", "composure",
  "initiative", "self-motivation", "proactive", "self-starter",
  "entrepreneurial", "ownership", "drive", "ambition", "autonomy",
  "customer service", "customer focus", "client relations",
  "customer success", "user empathy", "service orientation",
  "professionalism", "integrity", "ethics", "reliability",
  "dependability", "emotional intelligence", "cultural awareness",
  "diversity", "inclusion", "empathy", "patience"]

/-- CERTIFICATIONS from entity_taxonomy.py. -/
def CERTIFICATIONS : List String := [
  "aws certified", "aws solutions architect", "aws developer",
  "aws sysops", "aws devops", "aws machine learning",
  "aws data analytics", "aws security specialty",
  "azure certified", "azure administrator", "azure developer",
  "azure solutions architect", "azure devops", "azure data engineer",
  "gcp certified", "google cloud certified", "professional cloud architect",
  "professional data engineer", "professional machine learning",
  "oracle certified", "java certified", "oracle java programmer",
  "microsoft certified", "mcsa", "mcse", "mcsd",
  "salesforce certified", "salesforce administrator", "salesforce developer",
  "red hat certified", "rhcsa", "rhce",
  "pmp", "project management professional", "prince2", "capm",
  "certified scrum master", "csm", "psm", "safe", "safe agilist",
  "pmi-acp", "six sigma", "lean six sigma", "green belt", "black belt",
  "cissp", "cism", "cisa", "ceh", "certified ethical hacker",
  "comptia security+", "comptia network+", "comptia a+",
  "oscp", "ccna", "ccnp", "ccie",
  "certified data professional", "cdp", "cloudera certified",
  "databricks certified", "snowflake certified",
  "tableau certified", "power bi certified",
  "google analytics certified", "google ads certified",
  "kubernetes certified", "cka", "ckad", "cks",
  "docker certified", "dca", "terraform certified",
  "jenkins certified", "gitops certified",
  "itil", "togaf", "cobit", "iso 27001", "soc 2",
  "gdpr certified", "hipaa certified"]

/-- METHODOLOGIES from entity_taxonomy.py. -/
def METHODOLOGIES : List String := [
  "agile", "scrum", "kanban", "lean", "xp", "extreme programming",
  "safe", "scaled agile", "less", "nexus", "spotify model",
  "sprint", "standup", "retrospective", "backlog", "user stories",
  "story points", "velocity", "burndown",
  "waterfall", "prince2", "pmbok", "six sigma", "lean six sigma",
  "kaizen", "pdca", "plan-do-check-act",
  "tdd", "test-driven development", "bdd", "behavior-driven development",
  "ddd", "domain-driven design", "clean code", "solid principles",
  "pair programming", "mob programming", "code review",
  "trunk-based development", "gitflow", "feature flags",
  "devops", "devsecops", "sre", "site reliability engineering",
  "ci/cd", "continuous integration", "continuous deployment",
  "continuous delivery", "infrastructure as code", "gitops",
  "microservices", "monolithic", "serverless", "event-driven",
  "cqrs", "event sourcing", "saga pattern", "api-first",
  "service mesh", "hexagonal architecture", "clean architecture",
  "etl", "elt", "data mesh", "data lake", "data warehouse",
  "lambda architecture", "kappa architecture",
  "design thinking", "user-centered design", "human-centered design",
  "design sprint", "rapid prototyping"]

/-- DOMAINS from entity_taxonomy.py. -/
def DOMAINS : List String := [
  "fintech", "banking", "financial services", "investment banking",
  "asset management", "wealth management", "insurance", "insurtech",
  "payments", "trading", "capital markets", "risk management",
  "compliance", "regulatory", "aml", "kyc", "fraud detection",
  "healthcare", "healthtech", "medical", "pharmaceutical", "pharma",
  "biotech", "life sciences", "clinical", "telehealth", "telemedicine",
  "electronic health records", "ehr", "emr", "hipaa", "fda",
  "e-commerce", "ecommerce", "retail", "marketplace", "supply chain",
  "logistics", "inventory", "point of sale", "pos", "omnichannel",
  "saas", "paas", "iaas", "cloud computing", "enterprise software",
  "b2b", "b2c", "startup", "scale-up", "big tech", "faang",
  "media", "entertainment", "streaming", "gaming", "social media",
  "advertising", "adtech", "martech", "content management",
  "edtech", "education", "e-learning", "lms", "learning management",
  "online learning", "mooc", "educational technology",
  "government", "public sector", "defense", "aerospace",
  "civic tech", "govtech",
  "automotive", "manufacturing", "energy", "utilities", "oil and gas",
  "renewable energy", "cleantech", "real estate", "proptech",
  "travel", "hospitality", "food tech", "agriculture", "agtech",
  "telecommunications", "telecom", "legal tech", "hr tech",
  "non-profit", "ngo", "consulting"]

/-- ACTION_VERBS from entity_taxonomy.py. -/
def ACTION_VERBS : List String := [
  "led", "managed", "directed", "supervised", "coordinated", "oversaw",
  "headed", "spearheaded", "orchestrated", "mentored", "coached",
  "achieved", "accomplished", "delivered", "completed", "exceeded",
  "attained", "earned", "won", "secured",
  "built", "created", "developed", "designed", "architected",
  "established", "founded", "launched", "implemented", "deployed",
  "engineered", "constructed", "formulated",
  "improved", "enhanced", "optimized", "streamlined", "modernized",
  "transformed", "revamped", "upgraded", "accelerated", "boosted",
  "increased", "reduced", "decreased", "minimized", "eliminated",
  "analyzed", "researched", "investigated", "evaluated", "assessed",
  "identified", "discovered", "diagnosed", "resolved",
  "presented", "communicated", "negotiated", "collaborated",
  "partnered", "facilitated", "influenced", "persuaded",
  "drove", "executed", "performed", "conducted", "maintained",
  "supported", "contributed", "participated", "assisted"]

/-- YEARS_EXPERIENCE_PATTERNS from entity_taxonomy.py, each with its number
of capturing groups.  The translations follow the original regexes:
the first one is (d+)[+]? s* (years|yrs) s* (of s+)? (experience|exp) b,
then minimum-n-years, the n-to-m range, n-years-required and over-n. -/
def YEARS_EXPERIENCE_PATTERNS : List (RE × Nat) := [
  (reSeqL [RE.grp 1 digits1, reOpt (reStr "+"), ws0, yearsWord, ws0,
           reOpt (RE.seq (reStr "of") ws1),
           RE.alt (reStr "experience") (reStr "exp"), RE.wordB], 1),
  (reSeqL [reAltL [reStr "minimum", reStr "min", reStr "at least"], ws0,
           RE.grp 1 digits1, ws0, yearsWord], 1),
  (reSeqL [RE.grp 1 digits1, ws0, rePlus (RE.cls [.oneOf ['-', '–', 't', 'o']]), ws0,
           RE.grp 2 digits1, ws0, yearsWord], 2),
  (reSeqL [RE.grp 1 digits1, ws0, yearsWord, ws0,
           reOpt (RE.alt (reStr "experience") (reStr "exp")), ws0,
           reAltL [reStr "required", reStr "needed", reStr "necessary"]], 1),
  (reSeqL [reAltL [reStr "over", reStr "more than"], ws0,
           RE.grp 1 digits1, ws0, yearsWord], 1)]

/-- METRIC_PATTERNS from entity_taxonomy.py: percentages, dollar amounts,
user counts, team sizes, multipliers, rankings and project counts. -/
def METRIC_PATTERNS : List RE := [
  RE.seq digits1 (reStr "%"),
  reSeqL [reStr "$", rePlus (RE.cls [.digit, .oneOf [',']]),
          reOpt (RE.cls [.oneOf ['k', 'm', 'b']])],
  reSeqL [rePlus (RE.cls [.digit, .oneOf [',']]), ws0,
          reAltL [RE.seq (reStr "user") (reOpt (reStr "s")),
                  RE.seq (reStr "customer") (reOpt (reStr "s")),
                  RE.seq (reStr "client") (reOpt (reStr "s"))]],
  reSeqL [rePlus (RE.cls [.digit, .oneOf [',']]), ws0,
          reAltL [RE.seq (reStr "team member") (reOpt (reStr "s")),
                  RE.seq (reStr "engineer") (reOpt (reStr "s")),
                  RE.seq (reStr "developer") (reOpt (reStr "s"))]],
  reSeqL [digits1, reStr "x", RE.wordB],
  reSeqL [reStr "#", digits1, RE.wordB],
  reSeqL [digits1, ws0,
          reAltL [RE.seq (reStr "project") (reOpt (reStr "s")),
                  RE.seq (reStr "application") (reOpt (reStr "s")),
                  RE.seq (reStr "system") (reOpt (reStr "s"))]]]

/-- JOB_TITLE_PATTERNS from entity_taxonomy.py.  The Python groups are only
used for the whole-match text, so they are translated as plain grouping. -/
def JOB_TITLE_PATTERNS : List RE := [
  reSeqL [RE.wordB,
          reOpt (reAltL [reStr "senior", reStr "junior", reStr "lead", reStr "principal",
                         reStr "staff", reStr "distinguished"]),
          ws0,
          reAltL [reStr "software", reStr "backend", reStr "frontend",
                  reSeqL [reStr "full", reOpt (RE.cls [.oneOf ['-', ' ']]), reStr "stack"],
                  reStr "devops", reStr "data", reStr "ml", reStr "machine learning",
                  reStr "platform", reStr "infrastructure", reStr "site reliability",
                  reStr "sre", reStr "qa", reStr "test", reStr "mobile", reStr "ios",
                  reStr "android", reStr "embedded",
                  RE.seq (reStr "system") (reOpt (reStr "s")),
                  reStr "security", reStr "cloud",
                  RE.seq (reStr "solution") (reOpt (reStr "s"))],
          ws0,
          reAltL [reStr "engineer", reStr "developer", reStr "architect", reStr "specialist"],
          RE.wordB],
  reSeqL [RE.wordB,
          reAltL [reStr "engineering", reStr "product", reStr "project", reStr "program",
                  reStr "technical", reStr "delivery", reStr "development", reStr "it",
                  reStr "software"],
          ws0, reStr "manager", RE.wordB],
  reSeqL [RE.wordB,
          reOpt (reAltL [reStr "senior", reStr "junior", reStr "associate"]),
          ws0,
          reAltL [reStr "product", reStr "project", reStr "program", reStr "technical"],
          ws0,
          reAltL [reStr "manager", reStr "lead", reStr "director"],
          RE.wordB],
  reSeqL [RE.wordB,
          reAltL [reStr "director", reStr "head", reStr "vp", reStr "vice president",
                  reStr "chief"],
          ws0,
          reOpt (RE.seq (reStr "of") ws1),
          reAltL [reStr "engineering", reStr "technology", reStr "product", reStr "data",
                  reStr "analytics", reStr "information", reStr "digital", reStr "operations"],
          RE.wordB],
  reSeqL [RE.wordB,
          reAltL [reStr "cto", reStr "cio", reStr "cpo", reStr "cdo", reStr "ciso"],
          RE.wordB],
  reSeqL [RE.wordB,
          reOpt (reAltL [reStr "data", reStr "business", reStr "product", reStr "marketing",
                         reStr "financial"]),
          ws0,
          reAltL [reStr "analyst", reStr "scientist", reStr "engineer", reStr "architect"],
          RE.wordB],
  reSeqL [RE.wordB,
          reOpt (reAltL [reStr "senior", reStr "junior", reStr "lead"]),
          ws0,
          reAltL [reStr "ui", reStr "ux", reStr "ui/ux", reStr "product", reStr "visual",
                  reStr "graphic", reStr "interaction"],
          ws0, reStr "designer", RE.wordB],
  reSeqL [RE.wordB,
          reOpt (reAltL [reStr "technical", reStr "it", reStr "management", reStr "business",
                         reStr "strategy"]),
          ws0,
          reAltL [reStr "consultant", reStr "specialist", reStr "advisor"],
          RE.wordB],
  reSeqL [RE.wordB,
          reAltL [reStr "intern", reStr "trainee", reStr "associate", reStr "junior",
                  reSeqL [reStr "mid", reOpt (RE.cls [.oneOf ['-', ' ']]), reStr "level"],
                  reStr "senior", reStr "lead", reStr "principal", reStr "staff",
                  reStr "distinguished"],
          ws1, rePlus (RE.cls [.wordc]), RE.wordB]]

/-! ## Data model (document_parser.py) -/

/-- CVSectionType from document_parser.py. -/
inductive CVSectionType where
  | summary | skills | experience | education | certifications | projects | contact | unknown
deriving Repr, DecidableEq

/-- The .value string of a CVSectionType member. -/
def CVSectionType.value : CVSectionType → String
  | .summary => "summary"
  | .skills => "skills"
  | .experience => "experience"
  | .education => "education"
  | .certifications => "certifications"
  | .projects => "projects"
  | .contact => "contact"
  | .unknown => "unknown"

/-- JDSectionType from document_parser.py. -/
inductive JDSectionType where
  | overview | responsibilities | requirements | preferred | qualifications | benefits
  | about | unknown
deriving Repr, DecidableEq

/-- The .value string of a JDSectionType member. -/
def JDSectionType.value : JDSectionType → String
  | .overview => "overview"
  | .responsibilities => "responsibilities"
  | .requirements => "requirements"
  | .preferred => "preferred"
  | .qualifications => "qualifications"
  | .benefits => "benefits"
  | .about => "about"
  | .unknown => "unknown"

/-- EntityType from document_parser.py. -/
inductive EntityType where
  | hard_skill | soft_skill | certification | methodology | domain
  | job_title | years_experience | metric
deriving Repr, DecidableEq

/-- A CV or JD section type, as passed to the entity extractor. -/
inductive SectionKind where
  | cv (t : CVSectionType)
  | jd (t : JDSectionType)
deriving Repr, DecidableEq

/-- The .value string of the underlying enum member. -/
def SectionKind.value : SectionKind → String
  | .cv t => t.value
  | .jd t => t.value

/-- Entity from document_parser.py.  The section field holds the .value
string of the section type the entity was extracted under. -/
structure Entity where
  text : List Char
  entity_type : EntityType
  section_ : Option String := none
  evidence_strength : ℚ := 1
  context : List Char := []
deriving Repr, DecidableEq

/-- Entity.__eq__: equality on (lowercased text, entity type). -/
def entityEq (a b : Entity) : Bool :=
  lowerL a.text == lowerL b.text && a.entity_type == b.entity_type

/-- The identity key of an entity: (lowercased text, entity type). -/
def entityKey (e : Entity) : List Char × EntityType := (lowerL e.text, e.entity_type)

/-- Section from document_parser.py, parameterised by the section-type enum.
The content string is kept as its list of lines; contentText joins them
with newlines exactly as the Python join builds the content field. -/
structure SectionR (α : Type) where
  section_type : α
  title : List Char
  content_lines : List (List Char)
  start_line : Nat
  end_line : Int
  entities : List Entity := []
deriving Repr

/-- The content string of a section (newline join of its lines). -/
def SectionR.contentText {α : Type} (s : SectionR α) : List Char := joinNl s.content_lines

/-! ## Section detector (document_parser.py, SectionDetector) -/

/-- CV_SECTION_PATTERNS from document_parser.py, in the insertion order of
the Python dict.  Unused Python capturing groups are plain grouping here. -/
def CV_SECTION_PATTERNS : List (CVSectionType × List RE) := [
  (CVSectionType.summary, [
    reSeqL [RE.wordB, reOpt (RE.seq (reStr "professional") ws1), reStr "summary", RE.wordB],
    reSeqL [RE.wordB, reStr "profile", RE.wordB],
    reSeqL [RE.wordB, reStr "objective", RE.wordB],
    reSeqL [RE.wordB, reStr "about", ws0, reStr "me", RE.wordB],
    reSeqL [RE.wordB, reStr "personal", ws1, reStr "statement", RE.wordB],
    reSeqL [RE.wordB, reStr "career", ws1, reStr "summary", RE.wordB],
    reSeqL [RE.wordB, reStr "executive", ws1, reStr "summary", RE.wordB]]),
  (CVSectionType.skills, [
    reSeqL [RE.wordB,
            reOpt (reAltL [RE.seq (reStr "core") ws1, RE.seq (reStr "technical") ws1,
                           RE.seq (reStr "key") ws1]),
            reStr "skills", RE.wordB],
    reSeqL [RE.wordB, reStr "competencies", RE.wordB],
    reSeqL [RE.wordB, reStr "expertise", RE.wordB],
    reSeqL [RE.wordB, reStr "technical", ws1, reStr "proficiencies", RE.wordB],
    reSeqL [RE.wordB, reStr "proficiencies", RE.wordB],
    reSeqL [RE.wordB, reStr "technologies", RE.wordB],
    reSeqL [RE.wordB, reStr "tool", reOpt (reStr "s"), ws0,
            RE.alt (reStr "&") (reStr "and"), ws0, reStr "technologies", RE.wordB]]),
  (CVSectionType.experience, [
    reSeqL [RE.wordB,
            reOpt (RE.alt (RE.seq (reStr "work") ws1) (RE.seq (reStr "professional") ws1)),
            reStr "experience", RE.wordB],
    reSeqL [RE.wordB, reStr "employment", reOpt (RE.seq ws1 (reStr "history")), RE.wordB],
    reSeqL [RE.wordB, reStr "career", ws1, reStr "history", RE.wordB],
    reSeqL [RE.wordB, reStr "work", ws1, reStr "history", RE.wordB],
    reSeqL [RE.wordB, reStr "professional", ws1, reStr "background", RE.wordB]]),
  (CVSectionType.education, [
    reSeqL [RE.wordB, reStr "education", reOpt (reStr "al"), ws0,
            reOpt (reStr "background"), RE.wordB],
    reSeqL [RE.wordB, reStr "academic", ws1,
            RE.alt (reStr "background") (reStr "qualifications"), RE.wordB],
    reSeqL [RE.wordB, reStr "degree", reOpt (reStr "s"), RE.wordB],
    reSeqL [RE.wordB, reStr "qualifications", RE.wordB]]),
  (CVSectionType.certifications, [
    reSeqL [RE.wordB, reStr "certification", reOpt (reStr "s"), RE.wordB],
    reSeqL [RE.wordB, reStr "credentials", RE.wordB],
    reSeqL [RE.wordB, reStr "professional", ws1, reStr "certification", reOpt (reStr "s"),
            RE.wordB],
    reSeqL [RE.wordB, reStr "license", reOpt (reStr "s"), ws0,
            reOpt (RE.alt (reStr "&") (reStr "and")), ws0,
            reStr "certification", reOpt (reStr "s"), RE.wordB],
    reSeqL [RE.wordB, reStr "accreditation", reOpt (reStr "s"), RE.wordB]]),
  (CVSectionType.projects, [
    reSeqL [RE.wordB, reStr "project", reOpt (reStr "s"), RE.wordB],
    reSeqL [RE.wordB, reStr "portfolio", RE.wordB],
    reSeqL [RE.wordB, reStr "achievement", reOpt (reStr "s"), RE.wordB],
    reSeqL [RE.wordB, reStr "key", ws1, reStr "project", reOpt (reStr "s"), RE.wordB],
    reSeqL [RE.wordB, reStr "selected", ws1, reStr "project", reOpt (reStr "s"), RE.wordB],
    reSeqL [RE.wordB, reStr "notable", ws1, reStr "project", reOpt (reStr "s"), RE.wordB]]),
  (CVSectionType.contact, [
    reSeqL [RE.wordB, reStr "contact", reOpt (RE.seq ws1 (reStr "information")), RE.wordB],
    reSeqL [RE.wordB, reStr "personal", ws1, reStr "information", RE.wordB],
    reSeqL [RE.wordB, reStr "contact", ws1, reStr "details", RE.wordB]])]

/-- JD_SECTION_PATTERNS from document_parser.py, in dict insertion order. -/
def JD_SECTION_PATTERNS : List (JDSectionType × List RE) := [
  (JDSectionType.overview, [
    reSeqL [RE.wordB,
            reOpt (RE.alt (RE.seq (reStr "job") ws1) (RE.seq (reStr "role") ws1)),
            reStr "overview", RE.wordB],
    reSeqL [RE.wordB,
            reOpt (RE.alt (RE.seq (reStr "job") ws1) (RE.seq (reStr "role") ws1)),
            reStr "description", RE.wordB],
    reSeqL [RE.wordB, reStr "about", ws1, reStr "the", ws1,
            reAltL [reStr "role", reStr "position", reStr "job"], RE.wordB],
    reSeqL [RE.wordB, reStr "the", ws1, reStr "role", RE.wordB],
    reSeqL [RE.wordB, reStr "position", ws1, reStr "summary", RE.wordB]]),
  (JDSectionType.responsibilities, [
    reSeqL [RE.wordB, reStr "responsibilities", RE.wordB],
    reSeqL [RE.wordB, reStr "duties", RE.wordB],
    reSeqL [RE.wordB, reStr "what", ws1, reStr "you",
            RE.alt (RE.seq (RE.cls [.oneOf [aposC]]) (reStr "ll")) (reStr " will"),
            ws1, reStr "do", RE.wordB],
    reSeqL [RE.wordB, reStr "your", ws1, reStr "role", RE.wordB],
    reSeqL [RE.wordB, reStr "key", ws1, reStr "responsibilities", RE.wordB],
    reSeqL [RE.wordB, reStr "job", ws1, reStr "duties", RE.wordB],
    reSeqL [RE.wordB, reStr "day", ws1, reStr "to", ws1, reStr "day", RE.wordB]]),
  (JDSectionType.requirements, [
    reSeqL [RE.wordB, reStr "requirement", reOpt (reStr "s"), RE.wordB],
    reSeqL [RE.wordB, reStr "must", ws1, reStr "have", RE.wordB],
    reSeqL [RE.wordB, reStr "required", ws1,
            reAltL [RE.seq (reStr "skill") (reOpt (reStr "s")),
                    RE.seq (reStr "qualification") (reOpt (reStr "s")),
                    reStr "experience"], RE.wordB],
    reSeqL [RE.wordB, reStr "essential", ws1,
            reAltL [RE.seq (reStr "skill") (reOpt (reStr "s")),
                    RE.seq (reStr "qualification") (reOpt (reStr "s")),
                    reStr "criteria"], RE.wordB],
    reSeqL [RE.wordB, reStr "what", ws1, reStr "you",
            reOpt (RE.seq (RE.cls [.oneOf [aposC]]) (reStr "ll")),
            ws1, reStr "need", RE.wordB],
    reSeqL [RE.wordB, reStr "what", ws1, reStr "we",
            reOpt (RE.seq (RE.cls [.oneOf [aposC]]) (reStr "re")),
            ws1, reStr "looking", ws1, reStr "for", RE.wordB],
    reSeqL [RE.wordB, reStr "you", ws1, reStr "should", ws1, reStr "have", RE.wordB]]),
  (JDSectionType.preferred, [
    reSeqL [RE.wordB, reStr "nice", ws1, reStr "to", ws1, reStr "have", RE.wordB],
    reSeqL [RE.wordB, reStr "preferred", ws0,
            reOpt (RE.alt (RE.seq (reStr "skill") (reOpt (reStr "s")))
                          (RE.seq (reStr "qualification") (reOpt (reStr "s")))),
            RE.wordB],
    reSeqL [RE.wordB, reStr "bonus", ws0,
            reOpt (RE.alt (RE.seq (reStr "point") (reOpt (reStr "s")))
                          (RE.seq (reStr "skill") (reOpt (reStr "s")))),
            RE.wordB],
    reSeqL [RE.wordB, reStr "desirable", RE.wordB],
    reSeqL [RE.wordB, reStr "plus", ws1, reStr "point", reOpt (reStr "s"), RE.wordB],
    reSeqL [RE.wordB, reStr "additional", ws1,
            RE.alt (RE.seq (reStr "skill") (reOpt (reStr "s")))
                   (RE.seq (reStr "qualification") (reOpt (reStr "s"))),
            RE.wordB],
    reSeqL [RE.wordB, reStr "ideal", reOpt (reStr "ly"), RE.wordB]]),
  (JDSectionType.qualifications, [
    reSeqL [RE.wordB, reStr "qualification", reOpt (reStr "s"), RE.wordB],
    reSeqL [RE.wordB, reStr "education", reOpt (reStr "al"), ws0,
            reOpt (RE.seq (reStr "requirement") (reOpt (reStr "s"))), RE.wordB],
    reSeqL [RE.wordB, reStr "experience", ws1, reStr "required", RE.wordB],
    reSeqL [RE.wordB, reStr "minimum", ws1, reStr "qualification", reOpt (reStr "s"),
            RE.wordB]]),
  (JDSectionType.benefits, [
    reSeqL [RE.wordB, reStr "benefit", reOpt (reStr "s"), RE.wordB],
    reSeqL [RE.wordB, reStr "perk", reOpt (reStr "s"), RE.wordB],
    reSeqL [RE.wordB, reStr "compensation", RE.wordB],
    reSeqL [RE.wordB, reStr "what", ws1, reStr "we", ws1, reStr "offer", RE.wordB],
    reSeqL [RE.wordB, reStr "why", ws1, reStr "join", ws1, reStr "us", RE.wordB]]),
  (JDSectionType.about, [
    reSeqL [RE.wordB, reStr "about", ws1,
            reAltL [reStr "us", reSeqL [reStr "the", ws1, reStr "company"],
                    reSeqL [reStr "our", ws1, reStr "company"]], RE.wordB],
    reSeqL [RE.wordB, reStr "company", ws1,
            reAltL [reStr "overview", reStr "description", reStr "background"], RE.wordB],
    reSeqL [RE.wordB, reStr "who", ws1, reStr "we", ws1, reStr "are", RE.wordB],
    reSeqL [RE.wordB, reStr "our", ws1,
            reAltL [reStr "mission", reStr "story", reStr "culture"], RE.wordB]])]

/-- Whether the first list is an initial segment of the second. -/
def startsWithL : List Char → List Char → Bool
  | [], _ => true
  | _ :: _, [] => false
  | c :: cs, d :: ds => c == d && startsWithL cs ds

/-- Python substring containment: needle occurs contiguously in hay. -/
def containsSub (needle hay : List Char) : Bool :=
  if startsWithL needle hay then true
  else
    match hay with
    | [] => false
    | _ :: rest => containsSub needle rest

/-- The strong section-indicator substrings of _is_header_line. -/
def sectionIndicators : List String :=
  ["summary", "experience", "education", "skills",
   "responsibilities", "requirements", "qualifications"]

/-- Bullet or numbering start of _is_header_line: the first character falls
in the class of digits, dot, dash, star and the bullet sign. -/
def bulletStart : List Char → Bool
  | [] => false
  | c :: _ => c.isDigit || c == '.' || c == '-' || c == '*' || c == Char.ofNat 0x2022

/-- SectionDetector._is_header_line from document_parser.py. -/
def is_header_line (line : List Char) : Bool :=
  let stripped := pyStrip line
  if stripped.isEmpty then false
  else if stripped.length > 80 then false
  else
    let wc := (pySplitWs stripped).length
    if wc > 6 then false
    else if pyIsUpperStr stripped then true
    else if pyIsTitle stripped && wc ≤ 4 then true
    else if stripped.getLast? == some ':' then true
    else if bulletStart stripped && wc ≤ 3 then true
    else sectionIndicators.any (fun ind => containsSub ind.data (lowerL stripped))

/-- SectionDetector._match_section_type: first section type one of whose
patterns finds a match in the line, in table order. -/
def matchSectionType {α : Type} (table : List (α × List RE)) (line : List Char) : Option α :=
  match table with
  | [] => none
  | (t, pats) :: rest =>
    if pats.any (fun p => reSearch p line) then some t
    else matchSectionType rest line

/-- State of the section-detection loop: sections emitted so far, the
current section type, the accumulated content lines and the start line. -/
structure DetState (α : Type) where
  sections : List (SectionR α)
  current_section : Option α
  current_content : List (List Char)
  current_start : Nat
deriving Repr

/-- One iteration of the detection loop of detect_cv_sections /
detect_jd_sections, for the line at index i. -/
def detStep {α : Type} (matcher : List Char → Option α) (unknown : α)
    (lines : List (List Char)) (st : DetState α) (i : Nat) (line : List Char) : DetState α :=
  if is_header_line line then
    match matcher line with
    | some t =>
      let secs :=
        if st.current_section.isSome || !st.current_content.isEmpty then
          st.sections ++ [{ section_type := st.current_section.getD unknown
                            title := pyStrip (lines.getD st.current_start [])
                            content_lines := st.current_content
                            start_line := st.current_start
                            end_line := (i : Int) - 1 }]
        else st.sections
      ⟨secs, some t, [], i⟩
    | none => { st with current_content := st.current_content ++ [line] }
  else { st with current_content := st.current_content ++ [line] }

/-- The detection loop over the remaining lines, starting at index i. -/
def detLoop {α : Type} (matcher : List Char → Option α) (unknown : α)
    (lines : List (List Char)) : DetState α → Nat → List (List Char) → DetState α
  | st, _, [] => st
  | st, i, line :: rest =>
    detLoop matcher unknown lines (detStep matcher unknown lines st i line) (i + 1) rest

/-- Shared body of detect_cv_sections and detect_jd_sections: run the loop
over all lines and flush the final section. -/
def detectSections {α : Type} (matcher : List Char → Option α) (unknown : α)
    (text : List Char) : List (SectionR α) :=
  let lines := pySplitSep '\n' text
  let st := detLoop matcher unknown lines ⟨[], none, [], 0⟩ 0 lines
  if !st.current_content.isEmpty || st.current_section.isSome then
    st.sections ++ [{ section_type := st.current_section.getD unknown
                      title := pyStrip (lines.getD st.current_start [])
                      content_lines := st.current_content
                      start_line := st.current_start
                      end_line := (lines.length : Int) - 1 }]
  else st.sections

/-- SectionDetector.detect_cv_sections. -/
def detect_cv_sections (text : List Char) : List (SectionR CVSectionType) :=
  detectSections (matchSectionType CV_SECTION_PATTERNS) CVSectionType.unknown text

/-- SectionDetector.detect_jd_sections. -/
def detect_jd_sections (text : List Char) : List (SectionR JDSectionType) :=
  detectSections (matchSectionType JD_SECTION_PATTERNS) JDSectionType.unknown text

/-! ## Entity extractor (document_parser.py, EntityExtractor)

Taxonomy terms are matched by the word-boundary-anchored, case-insensitive
literal patterns built in EntityExtractor.__init__.  The dedicated scanner
below reproduces finditer for such literal patterns: a match at position i
consumes exactly the term (case-insensitively) and both ends satisfy the
word-boundary assertion.  The boundary test may use the word-character
status of the term characters themselves, because lowercasing preserves
that status. -/

/-- Consume the term (already lowercase) case-insensitively from the front
of the input, returning the remainder on success. -/
def consumeCI : List Char → List Char → Option (List Char)
  | [], rest => some rest
  | _ :: _, [] => none
  | t :: ts, c :: cs => if c.toLower == t then consumeCI ts cs else none

/-- Word-character status of the last character of the term (for the empty
term, the status of the preceding character, so the boundary test fails). -/
def lastIsWord (term : List Char) (prevW : Bool) : Bool :=
  match term.getLast? with
  | some c => isWordChar c
  | none => prevW

/-- Scanner loop for termOccs: position i, whether the previous character
is a word character, and the remaining input. -/
def termOccsFrom (term : List Char) : Nat → Nat → Bool → List Char → List (Nat × Nat)
  | 0, _, _, _ => []
  | _ + 1, _, _, [] => []
  | fuel + 1, i, prevW, c :: cs =>
    match consumeCI term (c :: cs) with
    | some rem =>
      if !term.isEmpty && (prevW != headIsWord term) && (lastIsWord term prevW != headIsWord rem) then
        (i, i + term.length) :: termOccsFrom term fuel (i + term.length) (lastIsWord term prevW) rem
      else termOccsFrom term fuel (i + 1) (isWordChar c) cs
    | none => termOccsFrom term fuel (i + 1) (isWordChar c) cs

/-- All non-overlapping, leftmost-first occurrences (start, stop) of the
word-bounded case-insensitive literal term in the text. -/
def termOccs (term text : List Char) : List (Nat × Nat) :=
  termOccsFrom term (text.length + 2) 0 false text

/-- EntityExtractor._get_context: text[max(0, s - window) : e + window]. -/
def getContext (text : List Char) (s e window : Nat) : List Char :=
  sliceL text (s - window) (e + window)

/-- EntityExtractor._calculate_evidence_strength: base 1.0 plus the section
bonus, the metric-proximity bonus and the action-verb bonus, capped at 2.0.
The action-verb alternation pattern is equivalent to some verb of
ACTION_VERBS having a word-bounded occurrence in the context. -/
def calc_evidence_strength (text : List Char) (stype : Option SectionKind)
    (ms me : Nat) : ℚ :=
  let context := getContext text ms me 100
  let s0 : ℚ := 1
  let s1 := s0 + (match stype with
    | some sk =>
      if sk.value == "experience" then (2 : ℚ) / 10
      else if sk.value == "projects" then (15 : ℚ) / 100
      else if sk.value == "summary" then (1 : ℚ) / 10
      else 0
    | none => 0)
  let s2 := s1 + (if METRIC_PATTERNS.any (fun p => reSearch p context) then (2 : ℚ) / 10 else 0)
  let s3 := s2 + (if ACTION_VERBS.any (fun v => !(termOccs v.data context).isEmpty)
                  then (1 : ℚ) / 10 else 0)
  min s3 2

/-- State of extract_entities: the seen keys and the entities collected. -/
structure ExtState where
  seen : List (List Char × EntityType)
  entities : List Entity
deriving Repr

/-- The entity built for one occurrence (start, stop) of a term. -/
def occEntity (text : List Char) (stype : Option SectionKind) (etype : EntityType)
    (strengthOf : Nat → Nat → ℚ) (occ : Nat × Nat) : Entity :=
  { text := sliceL text occ.1 occ.2
    entity_type := etype
    section_ := stype.map SectionKind.value
    evidence_strength := strengthOf occ.1 occ.2
    context := getContext text occ.1 occ.2 50 }

/-- The per-match body of extract_entities: skip when the key has been
seen, otherwise record the key and append the entity. -/
def stepOcc (key : List Char × EntityType) (mk : Nat × Nat → Entity)
    (st : ExtState) (occ : Nat × Nat) : ExtState :=
  if st.seen.contains key then st
  else { seen := key :: st.seen, entities := st.entities ++ [mk occ] }

/-- Process every occurrence of one taxonomy term, adding an entity for the
first one whose key has not been seen, exactly as the per-match seen-set
test of extract_entities. -/
def addTermMatches (text : List Char) (stype : Option SectionKind) (etype : EntityType)
    (strengthOf : Nat → Nat → ℚ) (st : ExtState) (term : String) : ExtState :=
  (termOccs (lowerL term.data) text).foldl
    (stepOcc (lowerL term.data, etype) (occEntity text stype etype strengthOf)) st

/-- One of the five per-category loops of extract_entities. -/
def extractCategory (text : List Char) (stype : Option SectionKind) (terms : List String)
    (etype : EntityType) (strengthOf : Nat → Nat → ℚ) (st : ExtState) : ExtState :=
  terms.foldl (addTermMatches text stype etype strengthOf) st

/-- The final extraction state: hard skills, soft skills (contextual
evidence strength), certifications (fixed 1.5), methodologies and domains
(fixed 1.0), the five loops sharing one seen-set. -/
def extractAll (text : List Char) (stype : Option SectionKind) : ExtState :=
  let st1 := extractCategory text stype HARD_SKILLS EntityType.hard_skill
    (fun s e => calc_evidence_strength text stype s e) ⟨[], []⟩
  let st2 := extractCategory text stype SOFT_SKILLS EntityType.soft_skill
    (fun s e => calc_evidence_strength text stype s e) st1
  let st3 := extractCategory text stype CERTIFICATIONS EntityType.certification
    (fun _ _ => (3 : ℚ) / 2) st2
  let st4 := extractCategory text stype METHODOLOGIES EntityType.methodology
    (fun _ _ => 1) st3
  extractCategory text stype DOMAINS EntityType.domain (fun _ _ => 1) st4

/-- EntityExtractor.extract_entities. -/
def extract_entities (text : List Char) (stype : Option SectionKind) : List Entity :=
  (extractAll text stype).entities

/-- EntityExtractor.extract_job_titles: whole-match texts of the title
patterns, stripped, deduplicated case-insensitively in first-seen order. -/
def extract_job_titles (text : List Char) : List (List Char) :=
  JOB_TITLE_PATTERNS.foldl (fun acc p =>
    (reFinditer p text).foldl (fun acc2 m =>
      let title := pyStrip (sliceL text m.1 m.2.1)
      if acc2.any (fun t => lowerL t == lowerL title) then acc2
      else acc2 ++ [title]) acc) []

/-- The values of match.groups() for a match: group k+1 maps to the slice
of its most recently recorded capture span, if any. -/
def groupValues (text : List Char) (caps : List (Nat × Nat × Nat)) (n : Nat) :
    List (Option (List Char)) :=
  (List.range n).map (fun k =>
    (caps.find? (fun c => c.1 == k + 1)).map (fun c => sliceL text c.2.1 c.2.2))

/-- EntityExtractor.extract_years_experience: over every pattern, match and
capture group, keep the largest integer among the nonempty digit groups. -/
def extract_years_experience (text : List Char) : Option Nat :=
  YEARS_EXPERIENCE_PATTERNS.foldl (fun acc pn =>
    (reFinditer pn.1 text).foldl (fun acc2 m =>
      (groupValues text m.2.2 pn.2).foldl (fun acc3 g =>
        match g with
        | some gs =>
          if pyIsDigitStr gs then
            match acc3 with
            | none => some (natOfDigits gs)
            | some m0 => if natOfDigits gs > m0 then some (natOfDigits gs) else acc3
          else acc3
        | none => acc3) acc2) acc) none

/-! ## Document parser (document_parser.py, DocumentParser) -/

/-- ParsedCV from document_parser.py. -/
structure ParsedCV where
  raw_text : List Char
  sections : List (SectionR CVSectionType)
  entities : List Entity
  years_experience : Option Nat
  job_titles : List (List Char)
deriving Repr

/-- ParsedJD from document_parser.py. -/
structure ParsedJD where
  raw_text : List Char
  sections : List (SectionR JDSectionType)
  entities : List Entity
  required_entities : List Entity
  preferred_entities : List Entity
  years_required : Option Nat
  job_title : Option (List Char)
deriving Repr

/-- The merge loop shared by parse_cv and parse_jd: append each full-text
entity that is not already present under Entity equality. -/
def mergeFullText (all full : List Entity) : List Entity :=
  full.foldl (fun acc e => if acc.any (fun e2 => entityEq e2 e) then acc else acc ++ [e]) all

/-- DocumentParser.parse_cv. -/
def parse_cv (text : List Char) : ParsedCV :=
  let sections := detect_cv_sections text
  let secPairs := sections.map (fun s =>
    (s, extract_entities s.contentText (some (SectionKind.cv s.section_type))))
  let sections2 := secPairs.map (fun p => { p.1 with entities := p.2 })
  let all_entities := (secPairs.map Prod.snd).flatten
  let merged := mergeFullText all_entities (extract_entities text none)
  { raw_text := text
    sections := sections2
    entities := merged
    years_experience := extract_years_experience text
    job_titles := extract_job_titles text }

/-- DocumentParser.parse_jd. -/
def parse_jd (text : List Char) : ParsedJD :=
  let sections := detect_jd_sections text
  let secPairs := sections.map (fun s =>
    (s, extract_entities s.contentText (some (SectionKind.jd s.section_type))))
  let sections2 := secPairs.map (fun p => { p.1 with entities := p.2 })
  let all_entities := (secPairs.map Prod.snd).flatten
  let required := ((secPairs.filter (fun p =>
    p.1.section_type == JDSectionType.requirements ||
    p.1.section_type == JDSectionType.qualifications)).map Prod.snd).flatten
  let preferred := ((secPairs.filter (fun p =>
    p.1.section_type == JDSectionType.preferred)).map Prod.snd).flatten
  let merged := mergeFullText all_entities (extract_entities text none)
  let titles := extract_job_titles text
  { raw_text := text
    sections := sections2
    entities := merged
    required_entities := required
    preferred_entities := preferred
    years_required := extract_years_experience text
    job_title := titles.head? }

/-! ## Semantic scorer (semantic_scorer.py, SemanticScorer)

Cosine similarities come from the embedding backend, which is outside the
embeddable core; the scoring pipeline below is therefore parameterised by
the list of SemanticMatch records produced by match_sections and by the
hard-entity counts of the parsed documents, which is all that
_apply_safety_rails and calculate_semantic_score read from them. -/

/-- SemanticMatch from semantic_scorer.py. -/
structure SemanticMatchR where
  jd_section : String
  cv_section : String
  similarity : ℚ
  jd_text_preview : List Char := []
  cv_text_preview : List Char := []
  is_high_value : Bool := false
deriving Repr

/-- SemanticScoreResult from semantic_scorer.py.  entity_support models the
entity_support_ratio field. -/
structure SemanticScoreResultR where
  score : ℚ
  section_similarities : List (String × ℚ) := []
  top_matches : List SemanticMatchR := []
  gaps : List String := []
  entity_support : ℚ := 0
  high_value_match_count : Nat := 0
  available : Bool := true
deriving Repr

/-- Python round(x, 1) modelled as rounding to the nearest tenth. -/
def roundTenth (q : ℚ) : ℚ := ((round (10 * q) : ℤ) : ℚ) / 10

/-- Python round(x, 2) modelled as rounding to the nearest hundredth. -/
def roundHundredth (q : ℚ) : ℚ := ((round (100 * q) : ℤ) : ℚ) / 100

/-- SemanticScorer._count_hard_entities: hard skills plus certifications. -/
def count_hard_entities (entities : List Entity) : Nat :=
  (entities.filter (fun e =>
    e.entity_type == EntityType.hard_skill ||
    e.entity_type == EntityType.certification)).length

/-- SemanticScorer._apply_safety_rails, parameterised by the hard-entity
counts of the parsed CV and JD.  Returns the adjusted score and the gap
notes, in rail order. -/
def apply_safety_rails (raw_score : ℚ) (mlist : List SemanticMatchR)
    (cv_entities jd_entities : Nat) : ℚ × List String :=
  let entity_ratio_v : ℚ :=
    if jd_entities > 0 then (cv_entities : ℚ) / (jd_entities : ℚ)
    else if cv_entities > 0 then 1 else 1 / 2
  let rail1 := raw_score > 70 ∧ entity_ratio_v < 3 / 10
  let s1 := if rail1 then raw_score - (raw_score - 70) * (1 / 2) else raw_score
  let g1 : List String :=
    if rail1 then
      ["Low entity coverage (" ++ toString cv_entities ++ " vs " ++
       toString jd_entities ++ " JD skills)"]
    else []
  let high_value_matches := mlist.filter (fun m => m.is_high_value && m.similarity > 50)
  let rail2 := high_value_matches.isEmpty ∧ s1 > 60
  let s2 := if rail2 then min s1 60 else s1
  let g2 : List String := if rail2 then ["No strong Experience/Projects matches"] else []
  let rail3 := mlist.length < 2 ∧ s2 > 50
  let s3 := if rail3 then min s2 50 else s2
  let g3 : List String := if rail3 then ["Limited section coverage"] else []
  (max 0 (min 100 s3), g1 ++ g2 ++ g3)

/-- SemanticScorer.calculate_semantic_score, parameterised by the
availability of the embedding package, the success of the lazy model load,
the section matches, and the hard-entity counts of the parsed documents. -/
def calculate_semantic_score (available model_loads : Bool)
    (mlist : List SemanticMatchR) (cv_entities jd_entities : Nat) :
    SemanticScoreResultR :=
  if !available then { score := 0, available := false, gaps := [] }
  else if !model_loads then { score := 0, available := false, gaps := [] }
  else if mlist.isEmpty then
    { score := 0, available := true, gaps := ["No matchable sections found"] }
  else
    let total_weight := mlist.foldl
      (fun acc m => acc + (if m.is_high_value then (3 : ℚ) / 2 else 1)) 0
    let weighted_sum := mlist.foldl
      (fun acc m => acc + m.similarity * (if m.is_high_value then (3 : ℚ) / 2 else 1)) 0
    let section_similarities := mlist.foldl (fun acc m =>
      if acc.any (fun p => p.1 == m.jd_section) then
        acc.map (fun p => if p.1 == m.jd_section then (p.1, max p.2 m.similarity) else p)
      else acc ++ [(m.jd_section, m.similarity)]) []
    let high_value_count := (mlist.filter (fun m => m.is_high_value && m.similarity > 50)).length
    let raw_score := if total_weight > 0 then weighted_sum / total_weight else 0
    let fg := apply_safety_rails raw_score mlist cv_entities jd_entities
    let entity_r : ℚ := if jd_entities > 0 then (cv_entities : ℚ) / (jd_entities : ℚ) else 0
    { score := roundTenth fg.1
      section_similarities := section_similarities
      top_matches := mlist.take 5
      gaps := fg.2
      entity_support := roundHundredth entity_r
      high_value_match_count := high_value_count
      available := true }

/-! ## ATS optimizer scoring (ats_optimizer.py, ATSOptimizer) -/

/-- The evidence-analysis record of _calculate_evidence_scores; each bucket
entry is (skill text, strength, section). -/
structure EvidenceScores where
  strong_evidence : List (List Char × ℚ × Option String) := []
  moderate_evidence : List (List Char × ℚ × Option String) := []
  weak_evidence : List (List Char × ℚ × Option String) := []
  average_strength : ℚ := 0
  total_weighted_score : ℚ := 0
deriving Repr

/-- ATSOptimizer._calculate_evidence_scores. -/
def calculate_evidence_scores (parsed_cv : ParsedCV) (parsed_jd : ParsedJD) :
    EvidenceScores :=
  let jd_skills := (parsed_jd.entities.filter (fun e =>
    e.entity_type == EntityType.hard_skill ||
    e.entity_type == EntityType.soft_skill)).map (fun e => lowerL e.text)
  let matched := parsed_cv.entities.filter (fun e => jd_skills.contains (lowerL e.text))
  let strong := matched.filter (fun e => e.evidence_strength > 13 / 10)
  let moderate := matched.filter (fun e =>
    !(e.evidence_strength > 13 / 10) && e.evidence_strength ≥ 1)
  let weak := matched.filter (fun e => e.evidence_strength < 1)
  let count := matched.length
  let total := matched.foldl (fun acc e => acc + e.evidence_strength) 0
  { strong_evidence := strong.map (fun e => (e.text, e.evidence_strength, e.section_))
    moderate_evidence := moderate.map (fun e => (e.text, e.evidence_strength, e.section_))
    weak_evidence := weak.map (fun e => (e.text, e.evidence_strength, e.section_))
    average_strength := if count > 0 then roundHundredth (total / count) else 0
    total_weighted_score := if count > 0 then roundHundredth total else 0 }

/-- The hybrid-score record returned by calculate_hybrid_score. -/
structure HybridScore where
  final_score : ℚ
  lexical_score : ℚ
  lexical_weight : ℚ
  lexical_contribution : ℚ
  semantic_score : ℚ
  semantic_weight : ℚ
  semantic_contribution : ℚ
  evidence_score : ℚ
  evidence_weight : ℚ
  evidence_contribution : ℚ
  semantic_available : Bool
deriving Repr

/-- ATSOptimizer.calculate_hybrid_score: lexical 55% + semantic 35% +
evidence 10% when semantic is available, lexical 90% + evidence 10%
otherwise; the evidence strength is normalised by (s - 0.5) / 1.5 * 100
and clamped to [0, 100]. -/
def calculate_hybrid_score (lexical_score : ℚ)
    (semantic_result : SemanticScoreResultR) (evidence_strength : ℚ) : HybridScore :=
  let lexical_weight : ℚ := if semantic_result.available then 55 / 100 else 90 / 100
  let semantic_weight : ℚ := if semantic_result.available then 35 / 100 else 0
  let evidence_weight : ℚ := 10 / 100
  let semantic_score : ℚ := if semantic_result.available then semantic_result.score else 0
  let evidence_score : ℚ := min 100 (max 0 ((evidence_strength - 1 / 2) / (3 / 2) * 100))
  let final_score := lexical_score * lexical_weight + semantic_score * semantic_weight +
    evidence_score * evidence_weight
  { final_score := roundTenth final_score
    lexical_score := roundTenth lexical_score
    lexical_weight := lexical_weight
    lexical_contribution := roundTenth (lexical_score * lexical_weight)
    semantic_score := roundTenth semantic_score
    semantic_weight := semantic_weight
    semantic_contribution := roundTenth (semantic_score * semantic_weight)
    evidence_score := roundTenth evidence_score
    evidence_weight := evidence_weight
    evidence_contribution := roundTenth (evidence_score * evidence_weight)
    semantic_available := semantic_result.available }

/-- The category-weighted lexical aggregation of calculate_ats_score.
Each entry is (matched count, missing count, category weight); a category
with no items contributes nothing to either sum. -/
def lexical_score_calc (cats : List (Nat × Nat × ℚ)) : ℚ :=
  let total_weight := cats.foldl (fun acc c =>
    if c.1 + c.2.1 > 0 then acc + c.2.2 * ((c.1 + c.2.1 : Nat) : ℚ) else acc) 0
  let weighted_score := cats.foldl (fun acc c =>
    if c.1 + c.2.1 > 0 then
      acc + ((c.1 : ℚ) / ((c.1 + c.2.1 : Nat) : ℚ)) * c.2.2 * ((c.1 + c.2.1 : Nat) : ℚ)
    else acc) 0
  if total_weight > 0 then weighted_score / total_weight * 100 else 0

/-- The six scoring buckets of calculate_ats_score with their weights:
critical_keywords 3.0, hard_skills 2.5, required 2.0, soft_skills 1.5,
preferred 1.0, frequency_keywords 0.5.  Each argument is the pair
(matched count, missing count) of one bucket. -/
def ats_buckets (crit hard req soft pref freq : Nat × Nat) : List (Nat × Nat × ℚ) :=
  [(crit.1, crit.2, 3), (hard.1, hard.2, 5 / 2), (req.1, req.2, 2),
   (soft.1, soft.2, 3 / 2), (pref.1, pref.2, 1), (freq.1, freq.2, 1 / 2)]

/-- The score field of the report returned by calculate_ats_score: the
final hybrid score, rounded to one decimal. -/
def ats_report_score (lexical_score : ℚ) (semantic_result : SemanticScoreResultR)
    (evidence_strength : ℚ) : ℚ :=
  roundTenth (calculate_hybrid_score lexical_score semantic_result evidence_strength).final_score

/-! ## Embedding cache (semantic_scorer.py, EmbeddingCache)

The cached values (numpy arrays) are opaque here, so the cache is generic
in the value type.  The Python dict is an association list with unique
keys in insertion order; assignment to a present key updates it in place.  -/

/-- Whether the key is present in the association list. -/
def dictHas {V : Type} (m : List (List Char × V)) (k : List Char) : Bool :=
  m.any (fun p => p.1 == k)

/-- Python dict assignment d[k] = v: update in place if present, else append. -/
def dictSet {V : Type} (m : List (List Char × V)) (k : List Char) (v : V) :
    List (List Char × V) :=
  if dictHas m k then m.map (fun p => if p.1 == k then (k, v) else p)
  else m ++ [(k, v)]

/-- Python d.pop(k, None): drop the entry with this key, if any. -/
def dictPop {V : Type} (m : List (List Char × V)) (k : List Char) :
    List (List Char × V) :=
  m.filter (fun p => p.1 != k)

/-- Python list.remove(x): drop the first occurrence of x. -/
def removeFirst : List (List Char) → List Char → List (List Char)
  | [], _ => []
  | x :: xs, k => if x == k then xs else x :: removeFirst xs k

/-- The state of an EmbeddingCache: maxsize, the dict of cached embeddings
and the recency list (least recently used first). -/
structure CacheState (V : Type) where
  maxsize : Nat
  cache : List (List Char × V)
  access_order : List (List Char)
deriving Repr

/-- The key normalisation of get and put: text.strip().lower(). -/
def cacheKey (t : List Char) : List Char := lowerL (pyStrip t)

/-- EmbeddingCache.get: on a hit, move the key to the most-recent end. -/
def cacheGet {V : Type} (st : CacheState V) (t : List Char) :
    CacheState V × Option V :=
  let k := cacheKey t
  match st.cache.find? (fun p => p.1 == k) with
  | some p =>
    ({ st with access_order :=
        (if st.access_order.contains k then removeFirst st.access_order k
         else st.access_order) ++ [k] }, some p.2)
  | none => (st, none)

/-- The eviction loop of EmbeddingCache.put: while the dict is at capacity
and the recency list is nonempty, pop its head and drop that key. -/
def evictLoop {V : Type} (maxsize : Nat) :
    List (List Char) → List (List Char × V) → List (List Char) × List (List Char × V)
  | [], cache => ([], cache)
  | oldest :: restOrder, cache =>
    if cache.length ≥ maxsize then evictLoop maxsize restOrder (dictPop cache oldest)
    else (oldest :: restOrder, cache)

/-- EmbeddingCache.put. -/
def cachePut {V : Type} (st : CacheState V) (t : List Char) (v : V) : CacheState V :=
  let k := cacheKey t
  let oc := evictLoop st.maxsize st.access_order st.cache
  { st with cache := dictSet oc.2 k v, access_order := oc.1 ++ [k] }

/-- A get or put operation on the cache. -/
inductive CacheOp (V : Type) where
  | get (t : List Char)
  | put (t : List Char) (v : V)

/-- Apply one operation to the cache state. -/
def cacheStep {V : Type} (st : CacheState V) : CacheOp V → CacheState V
  | .get t => (cacheGet st t).1
  | .put t v => cachePut st t v

/-- Run a sequence of operations from a fresh cache of the given maxsize. -/
def cacheRun {V : Type} (maxsize : Nat) (ops : List (CacheOp V)) : CacheState V :=
  ops.foldl cacheStep ⟨maxsize, [], []⟩


/-! ## Derived definitions used by the claim statements -/

/-- The integer candidate of one captured group: defined groups whose text
is all digits, as tested by extract_years_experience. -/
def candOfGroup : Option (List Char) → Option Nat
  | some gs => if pyIsDigitStr gs then some (natOfDigits gs) else none
  | none => none

/-- All integers captured by any capture group of any years pattern across
all matches in the text. -/
def yearCandidates (text : List Char) : List Nat :=
  YEARS_EXPERIENCE_PATTERNS.flatMap (fun pn =>
    (reFinditer pn.1 text).flatMap (fun m =>
      (groupValues text m.2.2 pn.2).filterMap candOfGroup))

/-- The running-maximum step of extract_years_experience. -/
def maxStep (acc : Option Nat) (y : Nat) : Option Nat :=
  match acc with
  | none => some y
  | some m0 => if y > m0 then some y else acc

/-- A line that opens a new CV section: it passes the header heuristic and
matches a known CV section pattern. -/
def cvBoundary (line : List Char) : Bool :=
  is_header_line line && (matchSectionType CV_SECTION_PATTERNS line).isSome

/-- A line that opens a new JD section. -/
def jdBoundary (line : List Char) : Bool :=
  is_header_line line && (matchSectionType JD_SECTION_PATTERNS line).isSome

/-- The number of entities of the list carrying the given identity key. -/
def keyCount (l : List Entity) (k : List Char × EntityType) : Nat :=
  l.countP (fun e => entityKey e == k)

/-- The five taxonomy categories with the entity type each one produces,
as iterated by extract_entities. -/
def categoryPairs : List (String × EntityType) :=
  HARD_SKILLS.map (fun s => (s, EntityType.hard_skill)) ++
  SOFT_SKILLS.map (fun s => (s, EntityType.soft_skill)) ++
  CERTIFICATIONS.map (fun s => (s, EntityType.certification)) ++
  METHODOLOGIES.map (fun s => (s, EntityType.methodology)) ++
  DOMAINS.map (fun s => (s, EntityType.domain))

/-- A section-opening line for a generic matcher: it passes the header
heuristic and matches a known section pattern. -/
def detBoundary {α : Type} (matcher : List Char → Option α) (line : List Char) : Bool :=
  is_header_line line && (matcher line).isSome

/-- All content lines held by a detector state: those already flushed into
emitted sections plus the running current_content buffer. -/
def stLines {α : Type} (st : DetState α) : List (List Char) :=
  (st.sections.map (fun s => s.content_lines)).flatten ++ st.current_content

/-- The section flushed when a new section opens or at end of input:
its content is the accumulated buffer and it starts at current_start. -/
def flushSec {α : Type} (unknown : α) (lines : List (List Char)) (st : DetState α)
    (endl : Int) : SectionR α :=
  { section_type := st.current_section.getD unknown
    title := pyStrip (lines.getD st.current_start [])
    content_lines := st.current_content
    start_line := st.current_start
    end_line := endl }

/-! ## Helper lemmas about the rounding model -/

lemma roundTenth_abs_sub (q : ℚ) : |roundTenth q - q| ≤ 1 / 20 := by
  have h : |((round (10 * q) : ℤ) : ℚ) - 10 * q| ≤ 1 / 2 := by
    have h2 := abs_sub_round (10 * q)
    rwa [abs_sub_comm] at h2
  have h2 : roundTenth q - q = (((round (10 * q) : ℤ) : ℚ) - 10 * q) / 10 := by
    rw [roundTenth]; ring
  rw [h2, abs_div]
  rw [show |(10 : ℚ)| = 10 by norm_num]
  linarith

lemma roundTenth_nonneg {q : ℚ} (h : 0 ≤ q) : 0 ≤ roundTenth q := by
  rw [roundTenth]
  have h1 : (0 : ℤ) ≤ round (10 * q) := by
    rw [round_eq]
    exact Int.floor_nonneg.mpr (by linarith)
  have h2 : (0 : ℚ) ≤ ((round (10 * q) : ℤ) : ℚ) := by exact_mod_cast h1
  linarith

lemma roundTenth_le_100 {q : ℚ} (h : q ≤ 100) : roundTenth q ≤ 100 := by
  rw [roundTenth]
  have h1 : round (10 * q) ≤ 1000 := by
    rw [round_eq]
    have h2 : ⌊10 * q + 1 / 2⌋ ≤ ⌊(1000 : ℚ) + 1 / 2⌋ := Int.floor_le_floor (by linarith)
    have h3 : ⌊(1000 : ℚ) + 1 / 2⌋ = 1000 := by
      rw [Int.floor_eq_iff]
      norm_num
    omega
  have h2 : ((round (10 * q) : ℤ) : ℚ) ≤ 1000 := by exact_mod_cast h1
  linarith

lemma roundTenth_idem (q : ℚ) : roundTenth (roundTenth q) = roundTenth q := by
  conv_lhs => rw [roundTenth, roundTenth]
  rw [show (10 : ℚ) * (((round (10 * q) : ℤ) : ℚ) / 10) = ((round (10 * q) : ℤ) : ℚ) by ring,
      round_intCast]
  rw [roundTenth]

/-- The report score as one rounding of the weighted combination: the outer
round of calculate_ats_score is idempotent over the one of
calculate_hybrid_score. -/
lemma ats_report_score_eq (lex ev : ℚ) (sem : SemanticScoreResultR) :
    ats_report_score lex sem ev =
      roundTenth (lex * (if sem.available then 55 / 100 else 90 / 100) +
        (if sem.available then sem.score else 0) * (if sem.available then 35 / 100 else 0) +
        min 100 (max 0 ((ev - 1 / 2) / (3 / 2) * 100)) * (10 / 100)) := by
  unfold ats_report_score calculate_hybrid_score
  simp only
  rw [roundTenth_idem]

/-! ## Claim theorems -/

/-- C1: for every input, the score returned by calculate_ats_score equals,
within rounding (at most 1/20 away, the resolution of round(x, 1)),
lexical x 0.55 + semantic x 0.35 + evidence x 0.10 when the semantic result
is available and lexical x 0.90 + evidence x 0.10 when it is not, where the
evidence component is ((average strength - 0.5) / 1.5) x 100 clamped to
[0, 100]; and when the embedding backend is unavailable,
calculate_semantic_score returns score 0.0 with available = false.
The inputs of every CV text, JD text and requirements string reach this
part of the pipeline only through the bucket counts, the section matches,
the entity counts and the average evidence strength, all of which are
universally quantified here. -/
theorem C1_hybrid_score_formula
    (crit hard req soft pref freq : Nat × Nat) (available model_loads : Bool)
    (mlist : List SemanticMatchR) (cv_entities jd_entities : Nat)
    (evidence_strength : ℚ) :
    (|ats_report_score (lexical_score_calc (ats_buckets crit hard req soft pref freq))
        (calculate_semantic_score available model_loads mlist cv_entities jd_entities)
        evidence_strength -
      (if (calculate_semantic_score available model_loads mlist cv_entities jd_entities).available
       then lexical_score_calc (ats_buckets crit hard req soft pref freq) * (55 / 100) +
            (calculate_semantic_score available model_loads mlist cv_entities
              jd_entities).score * (35 / 100) +
            min 100 (max 0 ((evidence_strength - 1 / 2) / (3 / 2) * 100)) * (10 / 100)
       else lexical_score_calc (ats_buckets crit hard req soft pref freq) * (90 / 100) +
            min 100 (max 0 ((evidence_strength - 1 / 2) / (3 / 2) * 100)) * (10 / 100))|
      ≤ 1 / 20)
    ∧ calculate_semantic_score false model_loads mlist cv_entities jd_entities =
        { score := 0, available := false, gaps := [] } := by
  constructor
  · rw [ats_report_score_eq]
    rcases h : (calculate_semantic_score available model_loads mlist cv_entities
        jd_entities).available
    · simp only [h, Bool.false_eq_true, if_false]
      have harg :
          lexical_score_calc (ats_buckets crit hard req soft pref freq) * (90 / 100) +
            0 * 0 +
            min 100 (max 0 ((evidence_strength - 1 / 2) / (3 / 2) * 100)) * (10 / 100) =
          lexical_score_calc (ats_buckets crit hard req soft pref freq) * (90 / 100) +
            min 100 (max 0 ((evidence_strength - 1 / 2) / (3 / 2) * 100)) * (10 / 100) := by
        ring
      rw [harg]
      exact roundTenth_abs_sub _
    · simp only [h, if_true]
      exact roundTenth_abs_sub _
  · rfl

/-- A conditional cap applied only when it binds equals the plain cap. -/
lemma cap_min_eq {b : Prop} [Decidable b] (s c : ℚ) :
    (if b ∧ s > c then min s c else s) = (if b then min s c else s) := by
  by_cases hb : b
  · by_cases hs : s > c
    · simp [hb, hs]
    · simp [hb, hs, min_eq_left (not_lt.mp hs)]
  · simp [hb]

/-- The no-strong-high-value-match test of the safety rails, as a
proposition over the match list. -/
lemma no_strong_iff (mlist : List SemanticMatchR) :
    ((mlist.filter (fun m => m.is_high_value && decide (m.similarity > 50))).isEmpty = true)
      ↔ (∀ m ∈ mlist, ¬(m.is_high_value = true ∧ m.similarity > 50)) := by
  rw [List.isEmpty_iff, List.filter_eq_nil_iff]
  simp only [Bool.and_eq_true, decide_eq_true_eq]

/-- C4: the safety rails compute the entity-sparsity penalty, the two caps
and the clamp as stated, and append one gap note per rail that fires. -/
theorem C4_safety_rails (raw_score : ℚ) (mlist : List SemanticMatchR)
    (cv_entities jd_entities : Nat) :
    apply_safety_rails raw_score mlist cv_entities jd_entities =
      (let ratio : ℚ := if jd_entities > 0 then (cv_entities : ℚ) / (jd_entities : ℚ)
                        else if cv_entities > 0 then 1 else 1 / 2
       let s1 : ℚ := if raw_score > 70 ∧ ratio < 3 / 10 then
                       raw_score - (raw_score - 70) * (1 / 2)
                     else raw_score
       let s2 : ℚ := if ∀ m ∈ mlist, ¬(m.is_high_value = true ∧ m.similarity > 50) then
                       min s1 60
                     else s1
       let s3 : ℚ := if mlist.length < 2 then min s2 50 else s2
       (max 0 (min 100 s3),
        (if raw_score > 70 ∧ ratio < 3 / 10 then
           ["Low entity coverage (" ++ toString cv_entities ++ " vs " ++
            toString jd_entities ++ " JD skills)"]
         else []) ++
        (if (∀ m ∈ mlist, ¬(m.is_high_value = true ∧ m.similarity > 50)) ∧ s1 > 60 then
           ["No strong Experience/Projects matches"]
         else []) ++
        (if mlist.length < 2 ∧ s2 > 50 then ["Limited section coverage"] else []))) := by
  have hiff := no_strong_iff mlist
  unfold apply_safety_rails
  by_cases hb : (mlist.filter (fun m => m.is_high_value && decide (m.similarity > 50))).isEmpty
  · have hNS := hiff.mp hb
    simp only [hb, eq_self_iff_true, true_and, eq_true hNS, if_true]
    set R : ℚ := if jd_entities > 0 then (cv_entities : ℚ) / (jd_entities : ℚ)
                 else if cv_entities > 0 then (1 : ℚ) else 1 / 2 with hRdef
    set S1 : ℚ := if raw_score > 70 ∧ R < 3 / 10 then raw_score - (raw_score - 70) * (1 / 2)
                  else raw_score with hS1def
    refine congrArg₂ Prod.mk ?_ ?_
    · by_cases hgt : S1 > 60
      · simp only [hgt, if_true]
        rw [cap_min_eq]
      · have hle : S1 ≤ 60 := not_lt.mp hgt
        simp only [hgt, if_false, min_eq_left hle]
        rw [cap_min_eq]
    · by_cases hgt : S1 > 60
      · simp only [hgt, if_true, and_true]
      · have hle : S1 ≤ 60 := not_lt.mp hgt
        simp only [hgt, if_false, min_eq_left hle, and_false]
  · have hNSf : ¬ (∀ m ∈ mlist, ¬(m.is_high_value = true ∧ m.similarity > 50)) :=
      fun h => hb (hiff.mpr h)
    simp only [Bool.not_eq_true] at hb
    simp only [hb, Bool.false_eq_true, false_and, if_false, eq_false hNSf]
    refine congrArg₂ Prod.mk ?_ rfl
    rw [cap_min_eq]

/-- Fold bound for the lexical aggregation: the weighted sum stays between
zero and the total weight, given nonnegative weights. -/
lemma lex_fold_aux (cats : List (Nat × Nat × ℚ)) (hw : ∀ c ∈ cats, 0 ≤ c.2.2) :
    ∀ a b : ℚ, 0 ≤ a → a ≤ b →
      0 ≤ cats.foldl (fun acc c =>
            if c.1 + c.2.1 > 0 then
              acc + ((c.1 : ℚ) / ((c.1 + c.2.1 : Nat) : ℚ)) * c.2.2 * ((c.1 + c.2.1 : Nat) : ℚ)
            else acc) a ∧
      cats.foldl (fun acc c =>
            if c.1 + c.2.1 > 0 then
              acc + ((c.1 : ℚ) / ((c.1 + c.2.1 : Nat) : ℚ)) * c.2.2 * ((c.1 + c.2.1 : Nat) : ℚ)
            else acc) a ≤
        cats.foldl (fun acc c =>
            if c.1 + c.2.1 > 0 then acc + c.2.2 * ((c.1 + c.2.1 : Nat) : ℚ) else acc) b := by
  induction cats with
  | nil => intro a b ha hab; simpa using ⟨ha, hab⟩
  | cons c rest ih =>
    intro a b ha hab
    have hwc : 0 ≤ c.2.2 := hw c (List.mem_cons_self c rest)
    have hwrest : ∀ x ∈ rest, 0 ≤ x.2.2 := fun x hx => hw x (List.mem_cons_of_mem c hx)
    simp only [List.foldl_cons]
    by_cases hc : c.1 + c.2.1 > 0
    · simp only [hc, if_true]
      have hn : (0 : ℚ) < ((c.1 + c.2.1 : Nat) : ℚ) := by exact_mod_cast hc
      have hr0 : 0 ≤ (c.1 : ℚ) / ((c.1 + c.2.1 : Nat) : ℚ) := div_nonneg (by positivity) hn.le
      have hr1 : (c.1 : ℚ) / ((c.1 + c.2.1 : Nat) : ℚ) ≤ 1 := by
        rw [div_le_one hn]
        exact_mod_cast Nat.le_add_right c.1 c.2.1
      have hwn : 0 ≤ c.2.2 * ((c.1 + c.2.1 : Nat) : ℚ) := mul_nonneg hwc hn.le
      have hstep : (c.1 : ℚ) / ((c.1 + c.2.1 : Nat) : ℚ) * c.2.2 * ((c.1 + c.2.1 : Nat) : ℚ)
          ≤ c.2.2 * ((c.1 + c.2.1 : Nat) : ℚ) := by
        nlinarith [mul_le_mul_of_nonneg_left hr1 hwn]
      have hstep0 : 0 ≤ (c.1 : ℚ) / ((c.1 + c.2.1 : Nat) : ℚ) * c.2.2 * ((c.1 + c.2.1 : Nat) : ℚ) := by
        positivity
      exact ih hwrest _ _ (by linarith) (by linarith)
    · simp only [hc, if_false]
      exact ih hwrest _ _ ha hab

/-- The lexical score is a weighted average of per-category ratios scaled
to a percentage, so it lies in the unit interval scaled by 100. -/
lemma lexical_score_calc_bounds (cats : List (Nat × Nat × ℚ))
    (hw : ∀ c ∈ cats, 0 ≤ c.2.2) :
    0 ≤ lexical_score_calc cats ∧ lexical_score_calc cats ≤ 100 := by
  unfold lexical_score_calc
  have h := lex_fold_aux cats hw 0 0 le_rfl le_rfl
  by_cases htw : (0 : ℚ) <
      cats.foldl (fun acc c =>
        if c.1 + c.2.1 > 0 then acc + c.2.2 * ((c.1 + c.2.1 : Nat) : ℚ) else acc) 0
  · simp only [htw, if_true]
    constructor
    · have := div_nonneg h.1 htw.le
      linarith
    · rw [div_mul_eq_mul_div, div_le_iff₀ htw]
      nlinarith [h.2]
  · simp only [htw, if_false]
    norm_num

/-- The weights of the six scoring buckets are nonnegative. -/
lemma ats_buckets_weights_nonneg (crit hard req soft pref freq : Nat × Nat) :
    ∀ c ∈ ats_buckets crit hard req soft pref freq, 0 ≤ c.2.2 := by
  intro c hc
  fin_cases hc <;> norm_num

/-- The adjusted semantic score leaves the safety rails clamped to [0, 100]. -/
lemma safety_rails_bounds (raw_score : ℚ) (mlist : List SemanticMatchR)
    (cv_entities jd_entities : Nat) :
    0 ≤ (apply_safety_rails raw_score mlist cv_entities jd_entities).1 ∧
      (apply_safety_rails raw_score mlist cv_entities jd_entities).1 ≤ 100 := by
  unfold apply_safety_rails
  exact ⟨le_max_left 0 _, max_le (by norm_num) (min_le_left _ _)⟩

/-- The semantic score is zero when unavailable or without matches and the
rounded clamped rail output otherwise, hence in [0, 100] in every case. -/
lemma semantic_score_bounds (available model_loads : Bool)
    (mlist : List SemanticMatchR) (cv_entities jd_entities : Nat) :
    0 ≤ (calculate_semantic_score available model_loads mlist cv_entities jd_entities).score ∧
      (calculate_semantic_score available model_loads mlist cv_entities jd_entities).score
        ≤ 100 := by
  unfold calculate_semantic_score
  split_ifs <;>
    first
      | exact ⟨le_rfl, by norm_num⟩
      | (dsimp only
         exact ⟨roundTenth_nonneg (safety_rails_bounds _ _ _ _).1,
                roundTenth_le_100 (safety_rails_bounds _ _ _ _).2⟩)

/-- The clamped evidence component is in [0, 100]. -/
lemma evidence_clamp_bounds (ev : ℚ) :
    0 ≤ min 100 (max 0 ((ev - 1 / 2) / (3 / 2) * 100)) ∧
      min 100 (max 0 ((ev - 1 / 2) / (3 / 2) * 100)) ≤ 100 :=
  ⟨le_min (by norm_num) (le_max_left 0 _), min_le_left _ _⟩

/-- The hybrid final score is a convex combination of components in
[0, 100] (weights 0.55/0.35/0.10, or 0.90/0/0.10 in the fallback),
rounded to one decimal. -/
lemma hybrid_final_bounds (lex ev : ℚ) (sem : SemanticScoreResultR)
    (hl0 : 0 ≤ lex) (hl1 : lex ≤ 100) (hs0 : 0 ≤ sem.score) (hs1 : sem.score ≤ 100) :
    0 ≤ (calculate_hybrid_score lex sem ev).final_score ∧
      (calculate_hybrid_score lex sem ev).final_score ≤ 100 := by
  unfold calculate_hybrid_score
  dsimp only
  have hev := evidence_clamp_bounds ev
  by_cases ha : sem.available = true
  · simp only [ha, if_true]
    constructor
    · exact roundTenth_nonneg (by nlinarith [hev.1, hev.2])
    · exact roundTenth_le_100 (by nlinarith [hev.1, hev.2])
  · simp only [ha, Bool.false_eq_true, if_false]
    constructor
    · exact roundTenth_nonneg (by nlinarith [hev.1, hev.2])
    · exact roundTenth_le_100 (by nlinarith [hev.1, hev.2])

/-- C2: the lexical score, the semantic score (also on negative raw cosine
similarities, which reach this code as negative match similarities), the
normalised evidence score and the final report score all lie in [0, 100].
The texts of calculate_ats_score reach these computations only through the
universally quantified bucket counts, matches, entity counts and average
evidence strength. -/
theorem C2_score_bounds (crit hard req soft pref freq : Nat × Nat)
    (available model_loads : Bool) (mlist : List SemanticMatchR)
    (cv_entities jd_entities : Nat) (evidence_strength : ℚ) :
    (0 ≤ lexical_score_calc (ats_buckets crit hard req soft pref freq) ∧
      lexical_score_calc (ats_buckets crit hard req soft pref freq) ≤ 100) ∧
    (0 ≤ (calculate_semantic_score available model_loads mlist cv_entities jd_entities).score ∧
      (calculate_semantic_score available model_loads mlist cv_entities jd_entities).score
        ≤ 100) ∧
    (0 ≤ (calculate_hybrid_score
            (lexical_score_calc (ats_buckets crit hard req soft pref freq))
            (calculate_semantic_score available model_loads mlist cv_entities jd_entities)
            evidence_strength).evidence_score ∧
      (calculate_hybrid_score
            (lexical_score_calc (ats_buckets crit hard req soft pref freq))
            (calculate_semantic_score available model_loads mlist cv_entities jd_entities)
            evidence_strength).evidence_score ≤ 100) ∧
    (0 ≤ ats_report_score
            (lexical_score_calc (ats_buckets crit hard req soft pref freq))
            (calculate_semantic_score available model_loads mlist cv_entities jd_entities)
            evidence_strength ∧
      ats_report_score
            (lexical_score_calc (ats_buckets crit hard req soft pref freq))
            (calculate_semantic_score available model_loads mlist cv_entities jd_entities)
            evidence_strength ≤ 100) := by
  have hlex := lexical_score_calc_bounds (ats_buckets crit hard req soft pref freq)
    (ats_buckets_weights_nonneg crit hard req soft pref freq)
  have hsem := semantic_score_bounds available model_loads mlist cv_entities jd_entities
  have hfin := hybrid_final_bounds
    (lexical_score_calc (ats_buckets crit hard req soft pref freq)) evidence_strength
    (calculate_semantic_score available model_loads mlist cv_entities jd_entities)
    hlex.1 hlex.2 hsem.1 hsem.2
  refine ⟨hlex, hsem, ?_, ?_⟩
  · have hev := evidence_clamp_bounds evidence_strength
    unfold calculate_hybrid_score
    dsimp only
    exact ⟨roundTenth_nonneg hev.1, roundTenth_le_100 hev.2⟩
  · unfold ats_report_score
    exact ⟨roundTenth_nonneg hfin.1, roundTenth_le_100 hfin.2⟩

/-- Removing one element of the recency list keeps every other element. -/
lemma removeFirst_mem_of_ne {a k : List Char} :
    ∀ {l : List (List Char)}, a ∈ l → a ≠ k → a ∈ removeFirst l k := by
  intro l
  induction l with
  | nil => intro hm _; cases hm
  | cons x xs ih =>
    intro hm hne
    rw [removeFirst]
    split
    · next hx =>
      rcases List.mem_cons.mp hm with h | h
      · subst h
        exact absurd (by simpa using hx) hne
      · exact h
    · next hx =>
      rcases List.mem_cons.mp hm with h | h
      · subst h
        exact List.mem_cons_self _ _
      · exact List.mem_cons_of_mem _ (ih h hne)

/-- The eviction loop keeps cache keys inside the remaining recency list,
ends below capacity or empty, and never grows the dict. -/
lemma evictLoop_spec {V : Type} (maxsize : Nat) :
    ∀ (order : List (List Char)) (cache : List (List Char × V)),
      (∀ p ∈ cache, p.1 ∈ order) →
      (∀ p ∈ (evictLoop maxsize order cache).2, p.1 ∈ (evictLoop maxsize order cache).1) ∧
      ((evictLoop maxsize order cache).2.length < maxsize ∨
        (evictLoop maxsize order cache).2 = []) ∧
      (evictLoop maxsize order cache).2.length ≤ cache.length := by
  intro order
  induction order with
  | nil =>
    intro cache hk
    have hc : cache = [] := by
      cases cache with
      | nil => rfl
      | cons p ps => exact absurd (hk p (List.mem_cons_self p ps)) (List.not_mem_nil p.1)
    subst hc
    simp [evictLoop]
  | cons oldest rest ih =>
    intro cache hk
    rw [evictLoop]
    split
    · next hge =>
      have hk2 : ∀ p ∈ dictPop cache oldest, p.1 ∈ rest := by
        intro p hp
        have hmem := List.mem_filter.mp hp
        have hne : p.1 ≠ oldest := by simpa using hmem.2
        rcases List.mem_cons.mp (hk p hmem.1) with h | h
        · exact absurd h hne
        · exact h
      have hlen : (dictPop cache oldest).length ≤ cache.length := List.length_filter_le _ _
      obtain ⟨a, b, cc⟩ := ih (dictPop cache oldest) hk2
      exact ⟨a, b, le_trans cc hlen⟩
    · next hlt =>
      exact ⟨fun p hp => hk p hp, Or.inl (by dsimp only; omega), le_rfl⟩

/-- Python dict assignment grows the dict only when the key is fresh. -/
lemma dictSet_length {V : Type} (m : List (List Char × V)) (k : List Char) (v : V) :
    (dictSet m k v).length = if dictHas m k then m.length else m.length + 1 := by
  unfold dictSet
  by_cases hh : dictHas m k <;> simp [hh]

/-- Keys after a dict assignment lie in the extended recency list. -/
lemma dictSet_keys {V : Type} (m : List (List Char × V)) (k : List Char) (v : V)
    (order : List (List Char)) (h : ∀ p ∈ m, p.1 ∈ order) :
    ∀ p ∈ dictSet m k v, p.1 ∈ order ++ [k] := by
  intro p hp
  unfold dictSet at hp
  by_cases hh : dictHas m k
  · rw [if_pos hh] at hp
    obtain ⟨q, hq, hpq⟩ := List.mem_map.mp hp
    by_cases hqk : q.1 == k
    · rw [if_pos hqk] at hpq
      subst hpq
      exact List.mem_append_right _ (by simp)
    · rw [if_neg hqk] at hpq
      subst hpq
      exact List.mem_append_left _ (h q hq)
  · rw [if_neg hh] at hp
    rcases List.mem_append.mp hp with h1 | h1
    · exact List.mem_append_left _ (h p h1)
    · have : p = (k, v) := by simpa using h1
      subst this
      exact List.mem_append_right _ (by simp)

/-- One cache operation preserves the size bound and the key invariant and
leaves maxsize unchanged. -/
lemma cacheStep_inv {V : Type} (st : CacheState V) (op : CacheOp V)
    (hlen : st.cache.length ≤ st.maxsize)
    (hkeys : ∀ p ∈ st.cache, p.1 ∈ st.access_order)
    (hm : 1 ≤ st.maxsize) :
    (cacheStep st op).cache.length ≤ (cacheStep st op).maxsize ∧
    (∀ p ∈ (cacheStep st op).cache, p.1 ∈ (cacheStep st op).access_order) ∧
    (cacheStep st op).maxsize = st.maxsize := by
  cases op with
  | get t =>
    simp only [cacheStep]
    unfold cacheGet
    dsimp only
    cases hf : st.cache.find? (fun p => p.1 == cacheKey t) with
    | none =>
      simp only [hf]
      exact ⟨hlen, hkeys, trivial⟩
    | some q =>
      simp only [hf]
      refine ⟨hlen, ?_, trivial⟩
      intro p hp
      by_cases hpk : p.1 = cacheKey t
      · rw [hpk]
        exact List.mem_append_right _ (by simp)
      · apply List.mem_append_left
        have hbase := hkeys p hp
        by_cases hco : st.access_order.contains (cacheKey t)
        · rw [if_pos hco]
          exact removeFirst_mem_of_ne hbase hpk
        · rw [if_neg hco]
          exact hbase
  | put t v =>
    simp only [cacheStep]
    unfold cachePut
    dsimp only
    have h1 := evictLoop_spec st.maxsize st.access_order st.cache hkeys
    refine ⟨?_, ?_, rfl⟩
    · rw [dictSet_length]
      by_cases hh : dictHas (evictLoop st.maxsize st.access_order st.cache).2 (cacheKey t)
      · rw [if_pos hh]
        exact le_trans h1.2.2 hlen
      · rw [if_neg hh]
        rcases h1.2.1 with h2 | h2
        · omega
        · rw [h2]
          simpa using hm
    · intro p hp
      exact dictSet_keys _ _ _ _ h1.1 p hp
  
/-- Running any operation sequence preserves the cache invariant. -/
lemma cacheRun_inv {V : Type} (ops : List (CacheOp V)) :
    ∀ st : CacheState V, 1 ≤ st.maxsize →
      st.cache.length ≤ st.maxsize → (∀ p ∈ st.cache, p.1 ∈ st.access_order) →
      (ops.foldl cacheStep st).cache.length ≤ (ops.foldl cacheStep st).maxsize ∧
      (ops.foldl cacheStep st).maxsize = st.maxsize := by
  induction ops with
  | nil => exact fun st h1 h2 h3 => ⟨h2, rfl⟩
  | cons op rest ih =>
    intro st h1 h2 h3
    simp only [List.foldl_cons]
    obtain ⟨ha, hb, hc⟩ := cacheStep_inv st op h2 h3 h1
    have h4 := ih (cacheStep st op) (by rw [hc]; exact h1) ha hb
    exact ⟨h4.1, by rw [h4.2, hc]⟩

/-- C10: for maxsize at least 1, no sequence of get and put operations on a
fresh EmbeddingCache ever leaves more than maxsize cached entries. -/
theorem C10_cache_never_exceeds_maxsize {V : Type} (maxsize : Nat)
    (ops : List (CacheOp V)) (h : 1 ≤ maxsize) :
    (cacheRun maxsize ops).cache.length ≤ maxsize := by
  have h2 := cacheRun_inv ops ⟨maxsize, [], []⟩ h (by simp) (by simp)
  unfold cacheRun
  calc (ops.foldl cacheStep ⟨maxsize, [], []⟩).cache.length
      ≤ (ops.foldl cacheStep ⟨maxsize, [], []⟩).maxsize := h2.1
    _ = maxsize := h2.2

/-- Witness for C10 at a concrete cache of maxsize 2 and four operations. -/
theorem C10_cache_never_exceeds_maxsize_witness :
    1 ≤ 2 ∧ (cacheRun 2 [CacheOp.put "alpha".data (1 : Nat), CacheOp.put "beta".data 2,
      CacheOp.put "gamma".data 3, CacheOp.get "beta".data]).cache.length ≤ 2 :=
  ⟨by decide, C10_cache_never_exceeds_maxsize 2 _ (by decide)⟩

/-- Folding over a flatMap equals the nested fold. -/
lemma foldl_flatMap {α β γ : Type} (f : γ → α → γ) (g : β → List α) (l : List β) (a : γ) :
    (l.flatMap g).foldl f a = l.foldl (fun acc x => (g x).foldl f acc) a := by
  induction l generalizing a with
  | nil => rfl
  | cons x xs ih => simp [List.flatMap_cons, List.foldl_append, ih]

/-- The per-group fold of extract_years_experience equals a running-maximum
fold over the digit candidates of the groups. -/
lemma inner_fold_eq (gs : List (Option (List Char))) :
    ∀ acc : Option Nat,
      gs.foldl (fun acc3 g =>
        match g with
        | some x =>
          if pyIsDigitStr x then
            match acc3 with
            | none => some (natOfDigits x)
            | some m0 => if natOfDigits x > m0 then some (natOfDigits x) else acc3
          else acc3
        | none => acc3) acc
      = (gs.filterMap candOfGroup).foldl maxStep acc := by
  induction gs with
  | nil => intro acc; rfl
  | cons g t ih =>
    intro acc
    cases g with
    | none => simp [List.filterMap_cons, candOfGroup, ih]
    | some x =>
      by_cases hd : pyIsDigitStr x
      · simp [List.filterMap_cons, candOfGroup, hd, ih, maxStep]
      · simp [List.filterMap_cons, candOfGroup, hd, ih]

/-- extract_years_experience is the running maximum over yearCandidates. -/
lemma extract_years_eq_fold (text : List Char) :
    extract_years_experience text = (yearCandidates text).foldl maxStep none := by
  unfold extract_years_experience yearCandidates
  rw [foldl_flatMap]
  congr 1
  funext acc pn
  rw [foldl_flatMap]
  congr 1
  funext acc2 m
  rw [← inner_fold_eq]

/-- One maximum step always yields a value. -/
lemma maxStep_isSome (a : Option Nat) (y : Nat) : (maxStep a y).isSome = true := by
  cases a with
  | none => rfl
  | some m0 =>
    by_cases h : y > m0 <;> simp [maxStep, h]

/-- The running-maximum fold is empty exactly on no candidates. -/
lemma foldl_maxStep_none_iff : ∀ (l : List Nat) (a : Option Nat),
    l.foldl maxStep a = none ↔ l = [] ∧ a = none := by
  intro l
  induction l with
  | nil => intro a; simp
  | cons y t ih =>
    intro a
    simp only [List.foldl_cons]
    rw [ih]
    constructor
    · rintro ⟨_, h2⟩
      have h3 := maxStep_isSome a y
      rw [h2] at h3
      simp at h3
    · rintro ⟨h, _⟩
      simp at h

/-- The running-maximum fold returns a member that bounds the candidates
and the start value. -/
lemma foldl_maxStep_spec : ∀ (l : List Nat) (a : Option Nat) (y : Nat),
    l.foldl maxStep a = some y →
    (y ∈ l ∨ a = some y) ∧ (∀ z ∈ l, z ≤ y) ∧ (∀ w, a = some w → w ≤ y) := by
  intro l
  induction l with
  | nil =>
    intro a y h
    simp only [List.foldl_nil] at h
    refine ⟨Or.inr h, by simp, fun w hw => ?_⟩
    rw [hw] at h
    injection h with h2
    omega
  | cons z t ih =>
    intro a y h
    simp only [List.foldl_cons] at h
    obtain ⟨h1, h2, h3⟩ := ih (maxStep a z) y h
    have hz : z ≤ y := by
      cases ha : a with
      | none => exact h3 z (by simp [maxStep, ha])
      | some m0 =>
        by_cases hgt : z > m0
        · exact h3 z (by simp [maxStep, ha, hgt])
        · have hm0 : m0 ≤ y := h3 m0 (by simp [maxStep, ha, hgt])
          omega
    refine ⟨?_, ?_, ?_⟩
    · rcases h1 with h1 | h1
      · exact Or.inl (List.mem_cons_of_mem _ h1)
      · cases ha : a with
        | none =>
          rw [ha] at h1
          simp only [maxStep, Option.some.injEq] at h1
          exact Or.inl (h1 ▸ List.mem_cons_self _ _)
        | some m0 =>
          rw [ha] at h1
          by_cases hgt : z > m0
          · simp only [maxStep, hgt, if_true, Option.some.injEq] at h1
            exact Or.inl (h1 ▸ List.mem_cons_self _ _)
          · simp only [maxStep, hgt, if_false, Option.some.injEq] at h1
            refine Or.inr ?_
            simp [ha, h1]
    · intro u hu
      rcases List.mem_cons.mp hu with hcase | hcase
      · exact hcase ▸ hz
      · exact h2 u hcase
    · intro w hw
      by_cases hgt : z > w
      · omega
      · exact h3 w (by simp [maxStep, hw, hgt])

/-- C7: extract_years_experience returns the maximum integer captured by
any capture group of any years pattern across all matches, none when there
is no candidate; on the text 5-7 years, 5 and 7 are both candidates and 7
is returned. -/
theorem C7_years_experience_max (text : List Char) :
    (extract_years_experience text = none ↔ yearCandidates text = [])
    ∧ (∀ y, extract_years_experience text = some y →
        y ∈ yearCandidates text ∧ ∀ z ∈ yearCandidates text, z ≤ y)
    ∧ extract_years_experience "5-7 years".data = some 7
    ∧ (5 : Nat) ∈ yearCandidates "5-7 years".data
    ∧ (7 : Nat) ∈ yearCandidates "5-7 years".data := by
  refine ⟨?_, ?_, by decide, by decide, by decide⟩
  · rw [extract_years_eq_fold, foldl_maxStep_none_iff]
    simp
  · intro y hy
    rw [extract_years_eq_fold] at hy
    obtain ⟨h1, h2, _⟩ := foldl_maxStep_spec _ _ _ hy
    rcases h1 with h1 | h1
    · exact ⟨h1, h2⟩
    · cases h1

/-- C8 counterexample: on the Scenario A texts, the JD side does give
years_required 5, but the CV text Worked with Python for 6 years. AWS
certified. matches none of the years patterns (each needs an experience
word, a required word, a minimum or over phrase, or an n-to-m range after
the number), so years_experience is none rather than 6 and the claimed
conjunction fails. -/
theorem C8_scenario_a_counterexample :
    ¬((parse_jd "5+ years experience with Python and AWS required. Nice to have: Docker.".data).years_required
        = some 5 ∧
      (parse_cv "Worked with Python for 6 years. AWS certified.".data).years_experience
        = some 6) := by
  decide

/-- C8 amended: years_required is 5 for the Scenario A job description and
years_experience is none for the Scenario A CV text. -/
theorem C8_scenario_a_amended :
    (parse_jd "5+ years experience with Python and AWS required. Nice to have: Docker.".data).years_required
      = some 5 ∧
    (parse_cv "Worked with Python for 6 years. AWS certified.".data).years_experience
      = none :=
  ⟨by decide, by decide⟩

/-- C3 counterexample: a CV whose Skills and Experience sections both
mention python yields two entities with the key (python, hard_skill) in
the ParsedCV entity list, because the per-section extraction results are
concatenated without deduplication across sections; only the full-text
pass is filtered against the list. -/
theorem C3_dedup_counterexample :
    ((parse_cv "SKILLS\npython\nEXPERIENCE\npython".data).entities).countP
      (fun e => entityKey e == ("python".data, EntityType.hard_skill)) = 2 := by
  decide

/-- A successful case-insensitive consumption means the consumed front
lowercases to the term and the remainder is the matching drop. -/
lemma consumeCI_some :
    ∀ {term rest rem : List Char}, consumeCI term rest = some rem →
      lowerL (rest.take term.length) = term ∧ rem = rest.drop term.length := by
  intro term
  induction term with
  | nil =>
    intro rest rem h
    simp only [consumeCI, Option.some.injEq] at h
    exact ⟨rfl, h.symm⟩
  | cons t ts ih =>
    intro rest rem h
    cases rest with
    | nil => simp [consumeCI] at h
    | cons c cs =>
      rw [consumeCI] at h
      by_cases hc : c.toLower == t
      · rw [if_pos hc] at h
        obtain ⟨h1, h2⟩ := ih h
        refine ⟨?_, by simpa using h2⟩
        simp only [List.length_cons, List.take_succ_cons, lowerL, List.map_cons]
        simp only [lowerL] at h1
        rw [h1]
        have : c.toLower = t := by simpa using hc
        rw [this]
      · rw [if_neg hc] at h
        cases h

/-- Every occurrence reported by the literal scanner spans exactly the
term length and its slice lowercases to the term. -/
lemma termOccsFrom_spec (term text : List Char) :
    ∀ (fuel i : Nat) (prevW : Bool) (rest : List Char),
      rest = text.drop i →
      ∀ p ∈ termOccsFrom term fuel i prevW rest,
        p.2 = p.1 + term.length ∧ lowerL (sliceL text p.1 p.2) = term := by
  intro fuel
  induction fuel with
  | zero => intro i prevW rest hr p hp; simp [termOccsFrom] at hp
  | succ f ih =>
    intro i prevW rest hr p hp
    cases rest with
    | nil => simp [termOccsFrom] at hp
    | cons ch cs =>
      rw [termOccsFrom] at hp
      have hcs : text.drop (i + 1) = cs := by
        have h2 : (text.drop i).drop 1 = cs := by rw [← hr]; rfl
        rw [List.drop_drop] at h2
        rw [← h2]
      cases hcme : consumeCI term (ch :: cs) with
      | some rem =>
        rw [hcme] at hp
        dsimp only at hp
        by_cases hcond : (!term.isEmpty && (prevW != headIsWord term) &&
            (lastIsWord term prevW != headIsWord rem)) = true
        · rw [if_pos hcond] at hp
          rcases List.mem_cons.mp hp with hh | hh
          · subst hh
            obtain ⟨hslice, _⟩ := consumeCI_some hcme
            refine ⟨rfl, ?_⟩
            have hsl : sliceL text i (i + term.length) = (ch :: cs).take term.length := by
              rw [sliceL, ← hr]
              try (congr 1; omega)
            rw [hsl, hslice]
          · obtain ⟨_, hrem⟩ := consumeCI_some hcme
            refine ih (i + term.length) (lastIsWord term prevW) rem ?_ p hh
            rw [hrem, hr, List.drop_drop]
        · rw [if_neg hcond] at hp
          exact ih (i + 1) (isWordChar ch) cs hcs.symm p hp
      | none =>
        rw [hcme] at hp
        dsimp only at hp
        exact ih (i + 1) (isWordChar ch) cs hcs.symm p hp

/-- Occurrence spec at the top level of the scanner. -/
lemma termOccs_spec (term text : List Char) :
    ∀ p ∈ termOccs term text,
      p.2 = p.1 + term.length ∧ lowerL (sliceL text p.1 p.2) = term := by
  intro p hp
  exact termOccsFrom_spec term text (text.length + 2) 0 false text (by simp) p hp

/-- Entity equality is equality of identity keys. -/
lemma entityEq_iff (a b : Entity) : entityEq a b = true ↔ entityKey a = entityKey b := by
  unfold entityEq entityKey
  simp [Prod.ext_iff]

/-- The key of the entity built for a reported occurrence of a term. -/
lemma occEntity_key (text : List Char) (stype : Option SectionKind) (etype : EntityType)
    (strengthOf : Nat → Nat → ℚ) (term : String) (occ : Nat × Nat)
    (h : occ ∈ termOccs (lowerL term.data) text) :
    entityKey (occEntity text stype etype strengthOf occ) = (lowerL term.data, etype) := by
  obtain ⟨_, h2⟩ := termOccs_spec (lowerL term.data) text occ h
  unfold occEntity entityKey
  dsimp only
  rw [h2]

/-- One occurrence step preserves the one-entity-per-seen-key invariant. -/
lemma stepOcc_inv {key : List Char × EntityType} {mk : Nat × Nat → Entity}
    (occ : Nat × Nat) (hmk : entityKey (mk occ) = key) {st : ExtState}
    (hinv : ∀ k, keyCount st.entities k = if st.seen.contains k then 1 else 0) :
    ∀ k, keyCount (stepOcc key mk st occ).entities k =
      if (stepOcc key mk st occ).seen.contains k then 1 else 0 := by
  intro k
  unfold stepOcc
  by_cases hc : st.seen.contains key
  · rw [if_pos hc]
    exact hinv k
  · rw [if_neg hc]
    dsimp only
    unfold keyCount
    rw [List.countP_append]
    have hsingle : List.countP (fun e => entityKey e == k) [mk occ] =
        if entityKey (mk occ) == k then 1 else 0 := by
      simp [List.countP_cons]
    by_cases hk : k = key
    · subst hk
      have h0 : List.countP (fun e => entityKey e == k) st.entities = 0 := by
        have := hinv k
        rw [if_neg hc] at this
        exact this
      rw [h0, hsingle, hmk]
      simp
    · have hk2 : (entityKey (mk occ) == k) = false := by
        rw [hmk]
        exact beq_eq_false_iff_ne.mpr (fun h => hk h.symm)
      rw [hsingle, hk2]
      have := hinv k
      unfold keyCount at this
      rw [this]
      have hck : (key :: st.seen).contains k = st.seen.contains k := by
        simp only [List.contains_cons]
        have : (k == key) = false := by simpa using hk
        rw [this]
        simp
      rw [hck]
      simp

/-- Folding the occurrence step over a match list preserves the invariant. -/
lemma foldl_stepOcc_inv {key : List Char × EntityType} {mk : Nat × Nat → Entity}
    (occs : List (Nat × Nat)) (hmk : ∀ occ ∈ occs, entityKey (mk occ) = key) :
    ∀ st : ExtState,
      (∀ k, keyCount st.entities k = if st.seen.contains k then 1 else 0) →
      ∀ k, keyCount ((occs.foldl (stepOcc key mk)) st).entities k =
        if ((occs.foldl (stepOcc key mk)) st).seen.contains k then 1 else 0 := by
  induction occs with
  | nil => intro st h; exact h
  | cons o t ih =>
    intro st h
    simp only [List.foldl_cons]
    exact ih (fun occ ho => hmk occ (List.mem_cons_of_mem o ho)) _
      (stepOcc_inv o (hmk o (List.mem_cons_self o t)) h)

/-- The occurrence step never loses a seen key. -/
lemma stepOcc_seen_mono {key : List Char × EntityType} {mk : Nat × Nat → Entity}
    {st : ExtState} {occ : Nat × Nat} {k0 : List Char × EntityType}
    (h : k0 ∈ st.seen) : k0 ∈ (stepOcc key mk st occ).seen := by
  unfold stepOcc
  split
  · exact h
  · exact List.mem_cons_of_mem _ h

/-- Folding the occurrence step never loses a seen key. -/
lemma foldl_stepOcc_seen_mono {key : List Char × EntityType} {mk : Nat × Nat → Entity}
    (occs : List (Nat × Nat)) :
    ∀ (st : ExtState) (k0 : List Char × EntityType), k0 ∈ st.seen →
      k0 ∈ ((occs.foldl (stepOcc key mk)) st).seen := by
  induction occs with
  | nil => intro st k0 h; simpa using h
  | cons o t ih =>
    intro st k0 h
    simp only [List.foldl_cons]
    exact ih _ k0 (stepOcc_seen_mono h)

/-- After one occurrence step the key is seen. -/
lemma stepOcc_seen_key {key : List Char × EntityType} {mk : Nat × Nat → Entity}
    {st : ExtState} {occ : Nat × Nat} : key ∈ (stepOcc key mk st occ).seen := by
  unfold stepOcc
  by_cases hc : st.seen.contains key
  · rw [if_pos hc]
    exact List.elem_iff.mp hc
  · rw [if_neg hc]
    exact List.mem_cons_self _ _

/-- After a nonempty match list is processed, the key is seen. -/
lemma foldl_stepOcc_seen_key {key : List Char × EntityType} {mk : Nat × Nat → Entity}
    {occs : List (Nat × Nat)} (h : occs ≠ []) (st : ExtState) :
    key ∈ ((occs.foldl (stepOcc key mk)) st).seen := by
  cases occs with
  | nil => exact absurd rfl h
  | cons o t =>
    simp only [List.foldl_cons]
    exact foldl_stepOcc_seen_mono t _ key stepOcc_seen_key

/-- addTermMatches preserves the invariant. -/
lemma addTermMatches_inv (text : List Char) (stype : Option SectionKind)
    (etype : EntityType) (strengthOf : Nat → Nat → ℚ) (st : ExtState) (term : String)
    (hinv : ∀ k, keyCount st.entities k = if st.seen.contains k then 1 else 0) :
    ∀ k, keyCount (addTermMatches text stype etype strengthOf st term).entities k =
      if (addTermMatches text stype etype strengthOf st term).seen.contains k then 1
      else 0 := by
  unfold addTermMatches
  exact foldl_stepOcc_inv _
    (fun occ ho => occEntity_key text stype etype strengthOf term occ ho) st hinv

/-- addTermMatches never loses a seen key. -/
lemma addTermMatches_seen_mono (text : List Char) (stype : Option SectionKind)
    (etype : EntityType) (strengthOf : Nat → Nat → ℚ) (st : ExtState) (term : String)
    (k0 : List Char × EntityType) (h : k0 ∈ st.seen) :
    k0 ∈ (addTermMatches text stype etype strengthOf st term).seen := by
  unfold addTermMatches
  exact foldl_stepOcc_seen_mono _ st k0 h

/-- The category loop preserves the invariant. -/
lemma extractCategory_inv (text : List Char) (stype : Option SectionKind)
    (terms : List String) (etype : EntityType) (strengthOf : Nat → Nat → ℚ) :
    ∀ st : ExtState,
      (∀ k, keyCount st.entities k = if st.seen.contains k then 1 else 0) →
      ∀ k, keyCount (extractCategory text stype terms etype strengthOf st).entities k =
        if (extractCategory text stype terms etype strengthOf st).seen.contains k then 1
        else 0 := by
  induction terms with
  | nil => intro st h; exact h
  | cons t ts ih =>
    intro st h
    simp only [extractCategory, List.foldl_cons]
    exact ih _ (addTermMatches_inv text stype etype strengthOf st t h)

/-- The category loop never loses a seen key. -/
lemma extractCategory_seen_mono (text : List Char) (stype : Option SectionKind)
    (terms : List String) (etype : EntityType) (strengthOf : Nat → Nat → ℚ) :
    ∀ (st : ExtState) (k0 : List Char × EntityType), k0 ∈ st.seen →
      k0 ∈ (extractCategory text stype terms etype strengthOf st).seen := by
  induction terms with
  | nil => intro st k0 h; simpa [extractCategory] using h
  | cons t ts ih =>
    intro st k0 h
    simp only [extractCategory, List.foldl_cons]
    exact ih _ k0 (addTermMatches_seen_mono text stype etype strengthOf st t k0 h)

/-- Processing a category containing a matching term records its key. -/
lemma extractCategory_seen_key (text : List Char) (stype : Option SectionKind)
    (terms : List String) (etype : EntityType) (strengthOf : Nat → Nat → ℚ)
    (term : String) (hterm : term ∈ terms)
    (hocc : termOccs (lowerL term.data) text ≠ []) :
    ∀ st : ExtState,
      (lowerL term.data, etype) ∈ (extractCategory text stype terms etype strengthOf st).seen := by
  induction terms with
  | nil => cases hterm
  | cons t ts ih =>
    intro st
    simp only [extractCategory, List.foldl_cons]
    rcases List.mem_cons.mp hterm with heq | hmem
    · subst heq
      apply extractCategory_seen_mono
      unfold addTermMatches
      exact foldl_stepOcc_seen_key hocc st
    · exact ih hmem _

/-- The final extraction state satisfies the invariant. -/
lemma extractAll_inv (text : List Char) (stype : Option SectionKind) :
    ∀ k, keyCount (extractAll text stype).entities k =
      if (extractAll text stype).seen.contains k then 1 else 0 := by
  unfold extractAll
  apply extractCategory_inv
  apply extractCategory_inv
  apply extractCategory_inv
  apply extractCategory_inv
  apply extractCategory_inv
  intro k
  simp [keyCount]

/-- C5: one call of extract_entities returns exactly one entity for each
(lowercased term, entity type) pair of the taxonomy that occurs
(word-bounded, case-insensitively) in the text, regardless of how many
occurrences there are. -/
theorem C5_extract_entities_dedup (text : List Char) (stype : Option SectionKind)
    (term : String) (etype : EntityType)
    (hcat : (term, etype) ∈ categoryPairs)
    (hocc : termOccs (lowerL term.data) text ≠ []) :
    keyCount (extract_entities text stype) (lowerL term.data, etype) = 1 := by
  have hinv := extractAll_inv text stype (lowerL term.data, etype)
  suffices hseen : (lowerL term.data, etype) ∈ (extractAll text stype).seen by
    unfold extract_entities
    rw [hinv, if_pos (List.elem_iff.mpr hseen)]
  unfold categoryPairs at hcat
  unfold extractAll
  rcases List.mem_append.mp hcat with h4 | hdom
  · rcases List.mem_append.mp h4 with h3 | hmeth
    · rcases List.mem_append.mp h3 with h2 | hcert
      · rcases List.mem_append.mp h2 with hhard | hsoft
        · obtain ⟨s, hs, heq⟩ := List.mem_map.mp hhard
          obtain ⟨h5, h6⟩ := Prod.mk.injEq .. |>.mp heq
          subst h5; subst h6
          apply extractCategory_seen_mono
          apply extractCategory_seen_mono
          apply extractCategory_seen_mono
          apply extractCategory_seen_mono
          exact extractCategory_seen_key _ _ _ _ _ s hs hocc _
        · obtain ⟨s, hs, heq⟩ := List.mem_map.mp hsoft
          obtain ⟨h5, h6⟩ := Prod.mk.injEq .. |>.mp heq
          subst h5; subst h6
          apply extractCategory_seen_mono
          apply extractCategory_seen_mono
          apply extractCategory_seen_mono
          exact extractCategory_seen_key _ _ _ _ _ s hs hocc _
      · obtain ⟨s, hs, heq⟩ := List.mem_map.mp hcert
        obtain ⟨h5, h6⟩ := Prod.mk.injEq .. |>.mp heq
        subst h5; subst h6
        apply extractCategory_seen_mono
        apply extractCategory_seen_mono
        exact extractCategory_seen_key _ _ _ _ _ s hs hocc _
    · obtain ⟨s, hs, heq⟩ := List.mem_map.mp hmeth
      obtain ⟨h5, h6⟩ := Prod.mk.injEq .. |>.mp heq
      subst h5; subst h6
      apply extractCategory_seen_mono
      exact extractCategory_seen_key _ _ _ _ _ s hs hocc _
  · obtain ⟨s, hs, heq⟩ := List.mem_map.mp hdom
    obtain ⟨h5, h6⟩ := Prod.mk.injEq .. |>.mp heq
    subst h5; subst h6
    exact extractCategory_seen_key _ _ _ _ _ s hs hocc _

/-- Witness for C5: the taxonomy term python occurs twice (in two cases)
in the text, and exactly one hard-skill entity with that key is returned. -/
theorem C5_extract_entities_dedup_witness :
    (("python", EntityType.hard_skill) ∈ categoryPairs ∧
      termOccs (lowerL "python".data) "python Python".data ≠ []) ∧
    keyCount (extract_entities "python Python".data none)
      (lowerL "python".data, EntityType.hard_skill) = 1 :=
  ⟨⟨by decide, by decide⟩,
    C5_extract_entities_dedup "python Python".data none "python" EntityType.hard_skill
      (by decide) (by decide)⟩

/-- The contextual evidence strength starts at 1.0, only adds nonnegative
bonuses and is capped at 2.0. -/
lemma calc_evidence_strength_bounds (text : List Char) (stype : Option SectionKind)
    (ms me : Nat) :
    1 ≤ calc_evidence_strength text stype ms me ∧
      calc_evidence_strength text stype ms me ≤ 2 := by
  unfold calc_evidence_strength
  dsimp only
  constructor
  · apply le_min _ (by norm_num)
    have hX : (0 : ℚ) ≤ (match stype with
      | some sk =>
        if sk.value == "experience" then (2 : ℚ) / 10
        else if sk.value == "projects" then (15 : ℚ) / 100
        else if sk.value == "summary" then (1 : ℚ) / 10
        else 0
      | none => 0) := by
      cases stype with
      | none => norm_num
      | some sk => dsimp only; split_ifs <;> norm_num
    have hY : (0 : ℚ) ≤
        (if METRIC_PATTERNS.any (fun p => reSearch p (getContext text ms me 100))
         then (2 : ℚ) / 10 else 0) := by
      split_ifs <;> norm_num
    have hZ : (0 : ℚ) ≤
        (if ACTION_VERBS.any (fun v => !(termOccs v.data (getContext text ms me 100)).isEmpty)
         then (1 : ℚ) / 10 else 0) := by
      split_ifs <;> norm_num
    linarith
  · exact min_le_right _ _

/-- One occurrence step keeps every entity strength in [1, 2]. -/
lemma stepOcc_strength {key : List Char × EntityType} {mk : Nat × Nat → Entity}
    {st : ExtState} {occ : Nat × Nat}
    (hP : 1 ≤ (mk occ).evidence_strength ∧ (mk occ).evidence_strength ≤ 2)
    (h : ∀ e ∈ st.entities, 1 ≤ e.evidence_strength ∧ e.evidence_strength ≤ 2) :
    ∀ e ∈ (stepOcc key mk st occ).entities,
      1 ≤ e.evidence_strength ∧ e.evidence_strength ≤ 2 := by
  unfold stepOcc
  split
  · exact h
  · intro e he
    rcases List.mem_append.mp he with h1 | h1
    · exact h e h1
    · have he2 : e = mk occ := by simpa using h1
      rw [he2]
      exact hP

/-- The per-term fold keeps every entity strength in [1, 2]. -/
lemma addTermMatches_strength (text : List Char) (stype : Option SectionKind)
    (etype : EntityType) (strengthOf : Nat → Nat → ℚ)
    (hS : ∀ a b : Nat, 1 ≤ strengthOf a b ∧ strengthOf a b ≤ 2) (term : String) :
    ∀ st : ExtState,
      (∀ e ∈ st.entities, 1 ≤ e.evidence_strength ∧ e.evidence_strength ≤ 2) →
      ∀ e ∈ (addTermMatches text stype etype strengthOf st term).entities,
        1 ≤ e.evidence_strength ∧ e.evidence_strength ≤ 2 := by
  unfold addTermMatches
  generalize termOccs (lowerL term.data) text = occs
  induction occs with
  | nil => intro st h; exact h
  | cons o t ih =>
    intro st h
    simp only [List.foldl_cons]
    refine ih _ (stepOcc_strength ?_ h)
    unfold occEntity
    exact hS o.1 o.2

/-- The category loop keeps every entity strength in [1, 2]. -/
lemma extractCategory_strength (text : List Char) (stype : Option SectionKind)
    (terms : List String) (etype : EntityType) (strengthOf : Nat → Nat → ℚ)
    (hS : ∀ a b : Nat, 1 ≤ strengthOf a b ∧ strengthOf a b ≤ 2) :
    ∀ st : ExtState,
      (∀ e ∈ st.entities, 1 ≤ e.evidence_strength ∧ e.evidence_strength ≤ 2) →
      ∀ e ∈ (extractCategory text stype terms etype strengthOf st).entities,
        1 ≤ e.evidence_strength ∧ e.evidence_strength ≤ 2 := by
  induction terms with
  | nil => intro st h; exact h
  | cons t ts ih =>
    intro st h
    simp only [extractCategory, List.foldl_cons]
    exact ih _ (addTermMatches_strength text stype etype strengthOf hS t st h)

/-- Every entity returned by extract_entities has strength in [1, 2]. -/
lemma extract_entities_strength (text : List Char) (stype : Option SectionKind) :
    ∀ e ∈ extract_entities text stype,
      1 ≤ e.evidence_strength ∧ e.evidence_strength ≤ 2 := by
  unfold extract_entities extractAll
  apply extractCategory_strength _ _ _ _ _ (by intro a b; norm_num)
  apply extractCategory_strength _ _ _ _ _ (by intro a b; norm_num)
  apply extractCategory_strength _ _ _ _ _ (by intro a b; norm_num)
  apply extractCategory_strength _ _ _ _ _
    (fun a b => calc_evidence_strength_bounds text stype a b)
  apply extractCategory_strength _ _ _ _ _
    (fun a b => calc_evidence_strength_bounds text stype a b)
  intro e he
  cases he

/-- Every member of the merged entity list comes from the section passes
or the full-text pass. -/
lemma mergeFullText_mem : ∀ (full all : List Entity) (e : Entity),
    e ∈ mergeFullText all full → e ∈ all ∨ e ∈ full := by
  intro full
  induction full with
  | nil =>
    intro all e h
    exact Or.inl (by simpa [mergeFullText] using h)
  | cons x t ih =>
    intro all e h
    simp only [mergeFullText, List.foldl_cons] at h
    rcases ih _ e h with h1 | h1
    · by_cases hin : all.any (fun e2 => entityEq e2 x)
      · rw [if_pos hin] at h1
        exact Or.inl h1
      · rw [if_neg hin] at h1
        rcases List.mem_append.mp h1 with h2 | h2
        · exact Or.inl h2
        · have he2 : e = x := by simpa using h2
          exact Or.inr (he2 ▸ List.mem_cons_self x t)
    · exact Or.inr (List.mem_cons_of_mem x h1)

/-- Every entity of a parsed CV has strength in [1, 2]. -/
lemma parse_cv_strength (text : List Char) :
    ∀ e ∈ (parse_cv text).entities,
      1 ≤ e.evidence_strength ∧ e.evidence_strength ≤ 2 := by
  intro e he
  simp only [parse_cv] at he
  rcases mergeFullText_mem _ _ e he with h1 | h1
  · obtain ⟨l, hl, hel⟩ := List.mem_flatten.mp h1
    obtain ⟨p, hp, hpl⟩ := List.mem_map.mp hl
    obtain ⟨s, _, hsp⟩ := List.mem_map.mp hp
    rw [← hpl, ← hsp] at hel
    exact extract_entities_strength _ _ e hel
  · exact extract_entities_strength _ _ e h1

/-- C9: every entity produced by extract_entities has evidence strength in
[1, 2] (the Boolean all-check over the output), and the weak-evidence
bucket of _calculate_evidence_scores is empty on every parsed CV/JD pair. -/
theorem C9_evidence_strength_bounds (text : List Char) (stype : Option SectionKind)
    (cv_text jd_text : List Char) :
    ((extract_entities text stype).all
        (fun e => decide (1 ≤ e.evidence_strength ∧ e.evidence_strength ≤ 2)) = true)
    ∧ (calculate_evidence_scores (parse_cv cv_text) (parse_jd jd_text)).weak_evidence
        = [] := by
  constructor
  · rw [List.all_eq_true]
    intro e he
    exact decide_eq_true (extract_entities_strength text stype e he)
  · unfold calculate_evidence_scores
    dsimp only
    rw [List.map_eq_nil_iff, List.filter_eq_nil_iff]
    intro e he
    have hmem : e ∈ (parse_cv cv_text).entities := (List.mem_filter.mp he).1
    have hb := (parse_cv_strength cv_text e hmem).1
    simp only [decide_eq_true_eq]
    linarith

/-- Every key occurs at most once in one extraction output. -/
lemma extract_keyCount_le_one (text : List Char) (stype : Option SectionKind)
    (k : List Char × EntityType) : keyCount (extract_entities text stype) k ≤ 1 := by
  unfold extract_entities
  rw [extractAll_inv]
  split <;> norm_num

/-- A list in which every key occurs at most once has pairwise distinct keys. -/
lemma pairwise_of_keyCount (l : List Entity) (h : ∀ k, keyCount l k ≤ 1) :
    l.Pairwise (fun a b => entityKey a ≠ entityKey b) := by
  induction l with
  | nil => exact List.Pairwise.nil
  | cons e t ih =>
    refine List.pairwise_cons.mpr ⟨?_, ih ?_⟩
    · intro b hb hkey
      have h1 := h (entityKey e)
      unfold keyCount at h1
      rw [List.countP_cons] at h1
      simp only [beq_self_eq_true, if_true] at h1
      have h2 : List.countP (fun x => entityKey x == entityKey e) t = 0 := by omega
      have h3 := List.countP_eq_zero.mp h2 b hb
      simp only [beq_iff_eq] at h3
      exact h3 hkey.symm
    · intro k
      have h1 := h k
      unfold keyCount at h1 ⊢
      rw [List.countP_cons] at h1
      omega

/-- When the appended list has pairwise distinct keys, the incremental
merge of parse_cv / parse_jd equals one filter against the initial list. -/
lemma mergeFullText_eq_filter : ∀ (full all : List Entity),
    full.Pairwise (fun a b => entityKey a ≠ entityKey b) →
    mergeFullText all full =
      all ++ full.filter (fun e => !(all.any (fun e2 => entityEq e2 e))) := by
  intro full
  induction full with
  | nil => intro all _; simp [mergeFullText]
  | cons x t ih =>
    intro all hp
    obtain ⟨hx, ht⟩ := List.pairwise_cons.mp hp
    have hstep : mergeFullText all (x :: t) =
        mergeFullText (if all.any (fun e2 => entityEq e2 x) then all else all ++ [x]) t := by
      simp [mergeFullText, List.foldl_cons]
    rw [hstep]
    by_cases hin : all.any (fun e2 => entityEq e2 x)
    · rw [if_pos hin, ih all ht]
      simp only [List.filter_cons]
      rw [show (!(all.any (fun e2 => entityEq e2 x))) = false by simp [hin]]
      simp
    · rw [if_neg hin, ih (all ++ [x]) ht]
      have hfil : t.filter (fun e => !((all ++ [x]).any (fun e2 => entityEq e2 e)))
          = t.filter (fun e => !(all.any (fun e2 => entityEq e2 e))) := by
        apply List.filter_congr
        intro e he
        have hxe : entityEq x e = false := by
          cases hEq : entityEq x e with
          | false => rfl
          | true => exact absurd (entityEq_iff x e |>.mp hEq) (hx e he)
        simp [List.any_append, hxe]
      rw [hfil]
      simp only [List.filter_cons]
      rw [show (!(all.any (fun e2 => entityEq e2 x))) = true by simp [hin]]
      simp

/-- C3 amended: the entity list of a parsed document is the concatenation
of the per-section extraction results followed by exactly those full-text
entities whose key is not already present; the full-text pass itself has
pairwise-distinct keys, so deduplication holds for its additions, while
entities extracted from different sections may repeat a key. -/
theorem C3_entities_merge_amended (text : List Char) :
    ((parse_cv text).entities =
      ((detect_cv_sections text).map (fun s =>
        extract_entities s.contentText (some (SectionKind.cv s.section_type)))).flatten ++
      (extract_entities text none).filter (fun e =>
        !((((detect_cv_sections text).map (fun s =>
            extract_entities s.contentText (some (SectionKind.cv s.section_type)))).flatten).any
          (fun e2 => entityEq e2 e))))
    ∧ (extract_entities text none).Pairwise (fun a b => entityKey a ≠ entityKey b)
    ∧ ((parse_jd text).entities =
      ((detect_jd_sections text).map (fun s =>
        extract_entities s.contentText (some (SectionKind.jd s.section_type)))).flatten ++
      (extract_entities text none).filter (fun e =>
        !((((detect_jd_sections text).map (fun s =>
            extract_entities s.contentText (some (SectionKind.jd s.section_type)))).flatten).any
          (fun e2 => entityEq e2 e)))) := by
  have hpw : (extract_entities text none).Pairwise (fun a b => entityKey a ≠ entityKey b) :=
    pairwise_of_keyCount _ (extract_keyCount_le_one text none)
  refine ⟨?_, hpw, ?_⟩
  · simp only [parse_cv]
    rw [mergeFullText_eq_filter _ _ hpw]
    simp [List.map_map, Function.comp_def]
  · simp only [parse_jd]
    rw [mergeFullText_eq_filter _ _ hpw]
    simp [List.map_map, Function.comp_def]

/-! ## Section-detector boundary structure (C6) -/

lemma getD_of_drop {l : List (List Char)} {i : Nat} {x : List Char}
    {rest : List (List Char)} (h : l.drop i = x :: rest) : l.getD i [] = x := by
  have h1 : l[i]? = some x := by
    rw [← List.head?_drop, h]
    rfl
  simp [List.getD_eq_getElem?_getD, h1]

lemma detStep_not_boundary {α : Type} (matcher : List Char → Option α) (unknown : α)
    (lines : List (List Char)) (st : DetState α) (i : Nat) (line : List Char)
    (hb : detBoundary matcher line = false) :
    detStep matcher unknown lines st i line =
      { st with current_content := st.current_content ++ [line] } := by
  unfold detStep
  by_cases hh : is_header_line line = true
  · rw [if_pos hh]
    cases hm : matcher line with
    | some t => exfalso; simp [detBoundary, hh, hm] at hb
    | none => rfl
  · rw [if_neg hh]

lemma detStep_boundary {α : Type} (matcher : List Char → Option α) (unknown : α)
    (lines : List (List Char)) (st : DetState α) (i : Nat) (line : List Char)
    (hb : detBoundary matcher line = true) :
    ∃ t, matcher line = some t ∧
      detStep matcher unknown lines st i line =
        ⟨(if st.current_section.isSome || !st.current_content.isEmpty then
            st.sections ++ [flushSec unknown lines st ((i : Int) - 1)]
          else st.sections), some t, [], i⟩ := by
  simp only [detBoundary, Bool.and_eq_true] at hb
  obtain ⟨t, hm⟩ := Option.isSome_iff_exists.mp hb.2
  refine ⟨t, hm, ?_⟩
  unfold detStep
  rw [if_pos hb.1, hm]
  rfl

lemma detLoop_inv {α : Type} (matcher : List Char → Option α) (unknown : α)
    (lines : List (List Char)) :
    ∀ (rest : List (List Char)) (st : DetState α) (i : Nat),
      lines.drop i = rest →
      (∀ s ∈ st.sections, s.start_line = 0 ∨
        detBoundary matcher (lines.getD s.start_line []) = true) →
      (st.current_start = 0 ∨
        detBoundary matcher (lines.getD st.current_start []) = true) →
      (∀ s ∈ (detLoop matcher unknown lines st i rest).sections,
          s.start_line = 0 ∨
          detBoundary matcher (lines.getD s.start_line []) = true) ∧
      ((detLoop matcher unknown lines st i rest).current_start = 0 ∨
        detBoundary matcher
          (lines.getD (detLoop matcher unknown lines st i rest).current_start []) = true) ∧
      (∀ l ∈ stLines st, l ∈ stLines (detLoop matcher unknown lines st i rest)) ∧
      (∀ l ∈ rest, detBoundary matcher l = false →
        l ∈ stLines (detLoop matcher unknown lines st i rest)) := by
  intro rest
  induction rest with
  | nil =>
    intro st i _ hsec hcur
    refine ⟨hsec, hcur, fun l hl => hl, fun l hl _ => absurd hl (List.not_mem_nil l)⟩
  | cons line rest2 ih =>
    intro st i hdrop hsec hcur
    have hdrop2 : lines.drop (i + 1) = rest2 := by
      have h1 := List.drop_drop 1 i lines
      rw [hdrop] at h1
      simpa using h1.symm
    have hline : lines.getD i [] = line := getD_of_drop hdrop
    simp only [detLoop]
    by_cases hb : detBoundary matcher line = true
    · obtain ⟨t, hm, heq⟩ := detStep_boundary matcher unknown lines st i line hb
      rw [heq]
      have hcur2 : (i : Nat) = 0 ∨ detBoundary matcher (lines.getD i []) = true := by
        right; rw [hline]; exact hb
      by_cases hf : (st.current_section.isSome || !st.current_content.isEmpty) = true
      · rw [if_pos hf]
        have hsec2 : ∀ s ∈ st.sections ++ [flushSec unknown lines st ((i : Int) - 1)],
            s.start_line = 0 ∨ detBoundary matcher (lines.getD s.start_line []) = true := by
          intro s hs
          rcases List.mem_append.mp hs with h | h
          · exact hsec s h
          · rcases List.mem_singleton.mp h with rfl
            exact hcur
        obtain ⟨ih1, ih2, ih3, ih4⟩ :=
          ih ⟨st.sections ++ [flushSec unknown lines st ((i : Int) - 1)], some t, [], i⟩
            (i + 1) hdrop2 hsec2 hcur2
        refine ⟨ih1, ih2, ?_, ?_⟩
        · intro l hl
          apply ih3
          simp only [stLines, flushSec, List.map_append, List.flatten_append, List.map_cons,
            List.map_nil, List.flatten_cons, List.flatten_nil, List.append_nil]
          simpa only [stLines] using hl
        · intro l hl hbl
          rcases List.mem_cons.mp hl with rfl | h
          · exact absurd hb (by rw [hbl]; exact Bool.false_ne_true)
          · exact ih4 l h hbl
      · rw [if_neg hf]
        have hcc : st.current_content = [] := by
          have h0 : (st.current_section.isSome || !st.current_content.isEmpty) = false := by
            simpa using hf
          rcases Bool.or_eq_false_iff.mp h0 with ⟨h1, h2⟩
          have h3 : st.current_content.isEmpty = true := by simpa using h2
          exact List.isEmpty_iff.mp h3
        obtain ⟨ih1, ih2, ih3, ih4⟩ :=
          ih ⟨st.sections, some t, [], i⟩ (i + 1) hdrop2 hsec hcur2
        refine ⟨ih1, ih2, ?_, ?_⟩
        · intro l hl
          apply ih3
          simp only [stLines, hcc, List.append_nil] at hl ⊢
          exact hl
        · intro l hl hbl
          rcases List.mem_cons.mp hl with rfl | h
          · exact absurd hb (by rw [hbl]; exact Bool.false_ne_true)
          · exact ih4 l h hbl
    · have hb2 : detBoundary matcher line = false := by simpa using hb
      rw [detStep_not_boundary matcher unknown lines st i line hb2]
      obtain ⟨ih1, ih2, ih3, ih4⟩ :=
        ih { st with current_content := st.current_content ++ [line] }
          (i + 1) hdrop2 hsec hcur
      refine ⟨ih1, ih2, ?_, ?_⟩
      · intro l hl
        apply ih3
        simp only [stLines] at hl ⊢
        rw [← List.append_assoc]
        exact List.mem_append_left _ hl
      · intro l hl hbl
        rcases List.mem_cons.mp hl with rfl | h
        · apply ih3
          simp only [stLines]
          rw [← List.append_assoc]
          exact List.mem_append_right _ (List.mem_singleton.mpr rfl)
        · exact ih4 l h hbl


lemma detectSections_inv {α : Type} (matcher : List Char → Option α) (unknown : α)
    (text : List Char) :
    (∀ s ∈ detectSections matcher unknown text, s.start_line = 0 ∨
      detBoundary matcher ((pySplitSep '\n' text).getD s.start_line []) = true) ∧
    (∀ l ∈ pySplitSep '\n' text, detBoundary matcher l = false →
      ∃ s ∈ detectSections matcher unknown text, l ∈ s.content_lines) := by
  obtain ⟨h1, h2, h3, h4⟩ :=
    detLoop_inv matcher unknown (pySplitSep '\n' text) (pySplitSep '\n' text)
      ⟨[], none, [], 0⟩ 0 (List.drop_zero _)
      (fun s hs => absurd hs (List.not_mem_nil s)) (Or.inl rfl)
  constructor
  · intro s hs
    simp only [detectSections] at hs
    by_cases hf : (!(detLoop matcher unknown (pySplitSep '\n' text) ⟨[], none, [], 0⟩ 0
        (pySplitSep '\n' text)).current_content.isEmpty ||
        (detLoop matcher unknown (pySplitSep '\n' text) ⟨[], none, [], 0⟩ 0
        (pySplitSep '\n' text)).current_section.isSome) = true
    · rw [if_pos hf] at hs
      rcases List.mem_append.mp hs with h | h
      · exact h1 s h
      · rcases List.mem_singleton.mp h with rfl
        exact h2
    · rw [if_neg hf] at hs
      exact h1 s hs
  · intro l hl hbl
    have hmem := h4 l hl hbl
    simp only [stLines] at hmem
    simp only [detectSections]
    by_cases hf : (!(detLoop matcher unknown (pySplitSep '\n' text) ⟨[], none, [], 0⟩ 0
        (pySplitSep '\n' text)).current_content.isEmpty ||
        (detLoop matcher unknown (pySplitSep '\n' text) ⟨[], none, [], 0⟩ 0
        (pySplitSep '\n' text)).current_section.isSome) = true
    · rw [if_pos hf]
      rcases List.mem_append.mp hmem with h | h
      · rcases List.mem_flatten.mp h with ⟨cl, hcl, hlcl⟩
        rcases List.mem_map.mp hcl with ⟨s, hsmem, rfl⟩
        exact ⟨s, List.mem_append_left _ hsmem, hlcl⟩
      · exact ⟨_, List.mem_append_right _ (List.mem_singleton.mpr rfl), h⟩
    · rw [if_neg hf]
      have h0 : (!(detLoop matcher unknown (pySplitSep '\n' text) ⟨[], none, [], 0⟩ 0
          (pySplitSep '\n' text)).current_content.isEmpty ||
          (detLoop matcher unknown (pySplitSep '\n' text) ⟨[], none, [], 0⟩ 0
          (pySplitSep '\n' text)).current_section.isSome) = false := by simpa using hf
      rcases Bool.or_eq_false_iff.mp h0 with ⟨hc1, _⟩
      have hcc : (detLoop matcher unknown (pySplitSep '\n' text) ⟨[], none, [], 0⟩ 0
          (pySplitSep '\n' text)).current_content = [] := by
        have h3 : (detLoop matcher unknown (pySplitSep '\n' text) ⟨[], none, [], 0⟩ 0
            (pySplitSep '\n' text)).current_content.isEmpty = true := by simpa using hc1
        exact List.isEmpty_iff.mp h3
      rw [hcc, List.append_nil] at hmem
      rcases List.mem_flatten.mp hmem with ⟨cl, hcl, hlcl⟩
      rcases List.mem_map.mp hcl with ⟨s, hsmem, rfl⟩
      exact ⟨s, hsmem, hlcl⟩


/-- C6: In detect_cv_sections and detect_jd_sections, only lines passing the
header heuristic AND matching a known section pattern ever open a section:
every emitted section starts at line 0 or at such a boundary line, and every
line that is not such a boundary line (including header-looking lines that
match no known pattern) is kept as content of one of the emitted sections,
never opening a section of its own. -/
theorem C6_unknown_header_no_break (text : List Char) :
    (∀ s ∈ detect_cv_sections text, s.start_line = 0 ∨
      cvBoundary ((pySplitSep '\n' text).getD s.start_line []) = true) ∧
    (∀ l ∈ pySplitSep '\n' text, cvBoundary l = false →
      ∃ s ∈ detect_cv_sections text, l ∈ s.content_lines) ∧
    (∀ s ∈ detect_jd_sections text, s.start_line = 0 ∨
      jdBoundary ((pySplitSep '\n' text).getD s.start_line []) = true) ∧
    (∀ l ∈ pySplitSep '\n' text, jdBoundary l = false →
      ∃ s ∈ detect_jd_sections text, l ∈ s.content_lines) := by
  obtain ⟨h1, h2⟩ :=
    detectSections_inv (matchSectionType CV_SECTION_PATTERNS) CVSectionType.unknown text
  obtain ⟨h3, h4⟩ :=
    detectSections_inv (matchSectionType JD_SECTION_PATTERNS) JDSectionType.unknown text
  exact ⟨h1, h2, h3, h4⟩

end JobApps
